import Mathlib

/-
  Verification development for the S.H.A.M. reliable datagram protocol
  (src/sham.h, src/sham.c).  The C code is shallowly embedded: machine
  integers become Nat with explicit reduction modulo 2^32 / 2^16 at the
  points where the C performs unsigned arithmetic, fixed C arrays become
  Lean lists of fixed length, wall-clock time is an explicit Int parameter
  (milliseconds), and the network is an explicit oracle of arriving
  packets.  Header fields are kept in host byte order inside `sham_packet`
  (the C stores them in network order via htonl/htons and converts back
  with ntohl/ntohs at every read, so the composition is the identity);
  byte order appears only in the wire decoder `sham_recv_packet`, which
  works on the raw datagram bytes.
-/

set_option linter.unusedVariables false

namespace Sham

/-- 2^32, the modulus of C `uint32_t` arithmetic. -/
def M32 : Nat := 4294967296

/-- 2^16, the modulus of C `uint16_t` arithmetic. -/
def M16 : Nat := 65536

/-- Protocol constants from src/sham.h (lines 33-48). -/
def SHAM_SYN : Nat := 1

def SHAM_ACK : Nat := 2

def SHAM_FIN : Nat := 4

def SHAM_MAX_DATA_SIZE : Nat := 1024

def SHAM_WINDOW_SIZE : Nat := 10

def SHAM_RTO_MS : Nat := 500

def SHAM_MAX_RETRIES : Nat := 5

/-- sizeof(struct sham_header) = 4 + 4 + 2 + 2. -/
def SHAM_HEADER_SIZE : Nat := 12

def SHAM_MAX_PACKET_SIZE : Nat := SHAM_HEADER_SIZE + SHAM_MAX_DATA_SIZE

def SHAM_DEFAULT_RECV_BUFFER_SIZE : Nat := 32 * 1024

def SHAM_DEFAULT_ADVERTISED_WINDOW : Nat := 16 * 1024

/-- Connection states (src/sham.h lines 52-65). -/
inductive sham_state where
  | SHAM_CLOSED
  | SHAM_LISTEN
  | SHAM_SYN_SENT
  | SHAM_SYN_RECEIVED
  | SHAM_ESTABLISHED
  | SHAM_FIN_WAIT_1
  | SHAM_FIN_WAIT_2
  | SHAM_CLOSE_WAIT
  | SHAM_CLOSING
  | SHAM_LAST_ACK
  | SHAM_TIME_WAIT
deriving DecidableEq

open sham_state

/-- struct sham_header (src/sham.h lines 68-78), fields in host order. -/
structure sham_header where
  seq_num : Nat
  ack_num : Nat
  flags : Nat
  window_size : Nat
deriving DecidableEq

/-- struct sham_packet (src/sham.h lines 81-86).  `data` holds exactly the
    `data_len` meaningful payload bytes (the C keeps them in a fixed
    1024-byte array of which only the first `data_len` are ever read). -/
structure sham_packet where
  header : sham_header
  data : List Nat
  data_len : Nat
deriving DecidableEq

/-- struct sham_window_entry (src/sham.h lines 89-95); `send_time` is the
    wall-clock timestamp in milliseconds. -/
structure sham_window_entry where
  packet : sham_packet
  send_time : Int
  retries : Nat
  acked : Bool
deriving DecidableEq

/-- struct sham_ooo_entry (src/sham.h lines 98-102). -/
structure sham_ooo_entry where
  packet : sham_packet
  valid : Bool
deriving DecidableEq

/-- struct sham_connection (src/sham.h lines 105-147), restricted to the
    protocol state (socket descriptors, peer address and log handles are
    I/O plumbing with no influence on the claims). -/
structure sham_connection where
  send_seq : Nat
  recv_seq : Nat
  send_base : Nat
  state : sham_state
  send_window : List sham_window_entry
  window_start : Nat
  window_count : Nat
  last_byte_sent : Nat
  last_byte_acked : Nat
  peer_window_size : Nat
  recv_buffer_size : Nat
  recv_buffer_used : Nat
  ooo_buffer : List sham_ooo_entry
deriving DecidableEq

/-- The all-zero packet produced by `memset(&packet, 0, sizeof(packet))`. -/
def zeroPacket : sham_packet :=
  { header := { seq_num := 0, ack_num := 0, flags := 0, window_size := 0 }
    data := []
    data_len := 0 }

def zeroWindowEntry : sham_window_entry :=
  { packet := zeroPacket, send_time := 0, retries := 0, acked := false }

def zeroOooEntry : sham_ooo_entry :=
  { packet := zeroPacket, valid := false }

/-- Fixed-size C array access `a[i]` (out-of-range reads never happen in
    the embedded code paths; a default is supplied to keep this total). -/
def aGet (l : List α) (i : Nat) (d : α) : α := l.getD i d

/-- Fixed-size C array store `a[i] = x`. -/
def aSet (l : List α) (i : Nat) (x : α) : List α := l.set i x

/-- sham_create_connection (src/sham.c lines 10-39).  The pseudo-random
    initial sequence number produced by sham_generate_isn is taken as a
    parameter. -/
def sham_create_connection (isn : Nat) : sham_connection :=
  { send_seq := isn % M32
    recv_seq := 0
    send_base := isn % M32
    state := SHAM_CLOSED
    send_window := List.replicate SHAM_WINDOW_SIZE zeroWindowEntry
    window_start := 0
    window_count := 0
    last_byte_sent := isn % M32
    last_byte_acked := isn % M32
    peer_window_size := SHAM_DEFAULT_ADVERTISED_WINDOW
    recv_buffer_size := SHAM_DEFAULT_RECV_BUFFER_SIZE
    recv_buffer_used := 0
    ooo_buffer := List.replicate SHAM_WINDOW_SIZE zeroOooEntry }

/-- sham_create_packet (src/sham.c lines 88-110).  A NULL data pointer is
    `none`.  The C `memcpy` copies `data_len` bytes from the caller's
    pointer, hence `d.take data_len`. -/
def sham_create_packet (seq ack flags : Nat) (data : Option (List Nat))
    (data_len : Nat) : sham_packet :=
  let hdr : sham_header :=
    { seq_num := seq % M32
      ack_num := ack % M32
      flags := flags % M16
      window_size := SHAM_DEFAULT_ADVERTISED_WINDOW }
  match data with
  | some d =>
      if 0 < data_len ∧ data_len ≤ SHAM_MAX_DATA_SIZE then
        { header := hdr, data := d.take data_len, data_len := data_len }
      else
        { header := hdr, data := [], data_len := 0 }
  | none => { header := hdr, data := [], data_len := 0 }

/-- sham_calculate_advertised_window (src/sham.c lines 1034-1057).  The
    subtraction is performed on `uint16_t`, i.e. modulo 2^16.  The static
    `last_advertised_window` variable only drives a log line and is not
    modelled. -/
def sham_calculate_advertised_window (conn : sham_connection) : Nat :=
  let available_space :=
    (conn.recv_buffer_size % M16 + M16 - conn.recv_buffer_used % M16) % M16
  if available_space < SHAM_MAX_DATA_SIZE then SHAM_MAX_DATA_SIZE
  else available_space

/-- sham_create_packet_with_conn (src/sham.c lines 113-123). -/
def sham_create_packet_with_conn (conn : sham_connection)
    (seq ack flags : Nat) (data : Option (List Nat)) (data_len : Nat) :
    sham_packet :=
  let packet := sham_create_packet seq ack flags data data_len
  { packet with
    header := { packet.header with
                window_size := sham_calculate_advertised_window conn % M16 } }

/-- Big-endian 32-bit read, as performed by ntohl on the copied header. -/
def be32 (b0 b1 b2 b3 : Nat) : Nat :=
  ((b0 % 256) * 16777216 + (b1 % 256) * 65536 + (b2 % 256) * 256 + b3 % 256)

/-- Big-endian 16-bit read, as performed by ntohs on the copied header. -/
def be16 (b0 b1 : Nat) : Nat := (b0 % 256) * 256 + b1 % 256

/-- sham_recv_packet (src/sham.c lines 151-209), decode part, acting on
    the raw bytes of one arriving datagram.  `recvfrom` is called with a
    buffer of `sizeof(buffer) = SHAM_MAX_PACKET_SIZE` bytes, so a longer
    datagram is delivered truncated to 1036 bytes (UDP discards the
    excess) and `received` is the truncated length.  `drop` is the
    outcome of the simulated-loss coin flip in sham_should_drop_packet;
    a dropped or undersized datagram yields `none` (the C returns -1). -/
def sham_recv_packet (datagram : List Nat) (drop : Bool) :
    Option sham_packet :=
  let received := min datagram.length SHAM_MAX_PACKET_SIZE
  let buffer := datagram.take SHAM_MAX_PACKET_SIZE
  if received < SHAM_HEADER_SIZE then none
  else if drop then none
  else
    let g := fun i => aGet buffer i 0
    some
      { header :=
          { seq_num := be32 (g 0) (g 1) (g 2) (g 3)
            ack_num := be32 (g 4) (g 5) (g 6) (g 7)
            flags := be16 (g 8) (g 9)
            window_size := be16 (g 10) (g 11) }
        data := buffer.drop SHAM_HEADER_SIZE
        data_len := received - SHAM_HEADER_SIZE }

/-- Bytes in flight as computed at the top of sham_can_send_data
    (src/sham.c lines 1062-1072): the subtraction is clamped at zero when
    the counters appear inverted. -/
def bytesInFlight (conn : sham_connection) : Nat :=
  if conn.last_byte_acked ≤ conn.last_byte_sent then
    conn.last_byte_sent - conn.last_byte_acked
  else 0

/-- sham_can_send_data (src/sham.c lines 1060-1080). -/
def sham_can_send_data (conn : sham_connection) (data_len : Nat) : Bool :=
  let bytes_in_flight := bytesInFlight conn
  let available_window :=
    if bytes_in_flight < conn.peer_window_size then
      conn.peer_window_size - bytes_in_flight
    else 0
  decide (data_len ≤ available_window)

/-- sham_update_flow_control (src/sham.c lines 1083-1089);
    `last_byte_sent` is a uint32_t. -/
def sham_update_flow_control (conn : sham_connection) (bytes_sent : Nat) :
    sham_connection :=
  { conn with last_byte_sent := (conn.last_byte_sent + bytes_sent) % M32 }

/-- sham_update_recv_buffer (src/sham.c lines 1092-1115);
    `recv_buffer_used` is a uint16_t, charged without any upper bound;
    the discharge direction saturates at zero. -/
def sham_update_recv_buffer (conn : sham_connection) (bytes_consumed : Int) :
    sham_connection :=
  if 0 < bytes_consumed then
    { conn with
      recv_buffer_used :=
        (conn.recv_buffer_used + bytes_consumed.toNat) % M16 }
  else if bytes_consumed < 0 then
    let freed := (-bytes_consumed).toNat
    if freed ≤ conn.recv_buffer_used then
      { conn with recv_buffer_used := conn.recv_buffer_used - freed }
    else
      { conn with recv_buffer_used := 0 }
  else conn

/-- The cumulative-acknowledgment loop of sham_process_ack (src/sham.c
    lines 634-654).  Each iteration either pops the oldest window entry
    (decrementing `window_count`) or breaks, so `window_count` itself is
    enough fuel. -/
def ackLoop : Nat → sham_connection → Nat → sham_connection
  | 0, conn, _ => conn
  | fuel + 1, conn, ack_num =>
    if conn.window_count = 0 then conn
    else
      let entry := aGet conn.send_window conn.window_start zeroWindowEntry
      let packet_end :=
        (entry.packet.header.seq_num + entry.packet.data_len) % M32
      if packet_end ≤ ack_num then
        let conn' :=
          { conn with
            send_window :=
              aSet conn.send_window conn.window_start
                { entry with acked := true }
            send_base := packet_end
            window_start := (conn.window_start + 1) % SHAM_WINDOW_SIZE
            window_count := conn.window_count - 1 }
        ackLoop fuel conn' ack_num
      else conn

/-- sham_process_ack (src/sham.c lines 614-657). -/
def sham_process_ack (conn : sham_connection) (ack_packet : sham_packet) :
    sham_connection :=
  let ack_num := ack_packet.header.ack_num
  let peer_window := ack_packet.header.window_size
  let conn1 := { conn with peer_window_size := peer_window }
  let conn2 :=
    if conn1.last_byte_acked < ack_num then
      { conn1 with last_byte_acked := ack_num }
    else conn1
  ackLoop conn2.window_count conn2 ack_num

/-- sham_is_timeout (src/sham.c lines 1019-1030), with both instants
    already expressed in milliseconds. -/
def sham_is_timeout (start now : Int) (timeout_ms : Nat) : Bool :=
  decide ((timeout_ms : Int) ≤ now - start)

/-- The scan of sham_handle_timeout (src/sham.c lines 660-699), walking
    offsets `i = 0 .. window_count-1`.  Returns the updated connection
    and the C return value (-1 when a timed-out entry has already used up
    its MAX_RETRIES attempts, 0 otherwise).  Retransmission itself is a
    datagram send with no effect on the connection state beyond the entry
    update. -/
def timeoutGo (now : Int) : Nat → sham_connection → Nat →
    sham_connection × Int
  | 0, conn, _ => (conn, 0)
  | fuel + 1, conn, i =>
    if i < conn.window_count then
      let idx := (conn.window_start + i) % SHAM_WINDOW_SIZE
      let entry := aGet conn.send_window idx zeroWindowEntry
      if entry.acked = false ∧ sham_is_timeout entry.send_time now SHAM_RTO_MS then
        if SHAM_MAX_RETRIES ≤ entry.retries then (conn, -1)
        else
          let entry' := { entry with retries := entry.retries + 1, send_time := now }
          timeoutGo now fuel
            { conn with send_window := aSet conn.send_window idx entry' } (i + 1)
      else timeoutGo now fuel conn (i + 1)
    else (conn, 0)

/-- sham_handle_timeout (src/sham.c lines 660-699). -/
def sham_handle_timeout (conn : sham_connection) (now : Int) :
    sham_connection × Int :=
  timeoutGo now conn.window_count conn 0

/-- The slot scan of sham_buffer_ooo_packet (src/sham.c lines 702-715):
    the packet is stored in the first invalid slot; with all ten slots
    valid it is dropped (the C returns -1). -/
def bufferLoop : Nat → Nat → sham_connection → sham_packet →
    sham_connection
  | 0, _, conn, _ => conn
  | fuel + 1, i, conn, packet =>
    if (aGet conn.ooo_buffer i zeroOooEntry).valid then
      bufferLoop fuel (i + 1) conn packet
    else
      { conn with
        ooo_buffer := aSet conn.ooo_buffer i { packet := packet, valid := true } }

/-- sham_buffer_ooo_packet (src/sham.c lines 702-715). -/
def sham_buffer_ooo_packet (conn : sham_connection) (packet : sham_packet) :
    sham_connection :=
  bufferLoop SHAM_WINDOW_SIZE 0 conn packet

/-- The inner slot scan of sham_deliver_ooo_packets: index of the first
    valid slot whose sequence number equals `recv_seq`, if any. -/
def oooFindGo (conn : sham_connection) : Nat → Nat → Option Nat
  | 0, _ => none
  | fuel + 1, i =>
    let e := aGet conn.ooo_buffer i zeroOooEntry
    if e.valid = true ∧ e.packet.header.seq_num = conn.recv_seq then some i
    else oooFindGo conn fuel (i + 1)

def oooFind (conn : sham_connection) : Option Nat :=
  oooFindGo conn SHAM_WINDOW_SIZE 0

/-- sham_deliver_ooo_packets (src/sham.c lines 718-751).  The C repeats
    the scan while a slot was delivered; every delivery invalidates one
    of the ten slots, so SHAM_WINDOW_SIZE + 1 iterations always reach the
    final scan that finds nothing.  `buffer`/`buffer_pos` model the
    caller's byte buffer as the list of bytes written so far (writes are
    sequential at offset `buffer_pos`, and `buffer_pos ≤ buffer_size` at
    every call site, so the size_t subtraction does not wrap). -/
def deliverGo : Nat → sham_connection → List Nat → Nat → Nat →
    sham_connection × List Nat × Nat
  | 0, conn, buffer, buffer_pos, _ => (conn, buffer, buffer_pos)
  | fuel + 1, conn, buffer, buffer_pos, buffer_size =>
    match oooFind conn with
    | none => (conn, buffer, buffer_pos)
    | some i =>
      let e := aGet conn.ooo_buffer i zeroOooEntry
      let copy_len :=
        if buffer_size - buffer_pos < e.packet.data_len then
          buffer_size - buffer_pos
        else e.packet.data_len
      let buffer' := buffer ++ e.packet.data.take copy_len
      let conn' :=
        { conn with
          recv_seq := (conn.recv_seq + e.packet.data_len) % M32
          ooo_buffer := aSet conn.ooo_buffer i { e with valid := false } }
      deliverGo fuel conn' buffer' (buffer_pos + copy_len) buffer_size

/-- sham_deliver_ooo_packets (src/sham.c lines 718-751). -/
def sham_deliver_ooo_packets (conn : sham_connection) (buffer : List Nat)
    (buffer_pos buffer_size : Nat) : sham_connection × List Nat × Nat :=
  deliverGo (SHAM_WINDOW_SIZE + 1) conn buffer buffer_pos buffer_size

/-- Result of processing one arriving packet inside sham_recv's loop. -/
structure RecvOut where
  conn : sham_connection
  buffer : List Nat
  buffer_pos : Nat
  ack : Option sham_packet
deriving DecidableEq

/-- The data-placement branch of the sham_recv loop body (src/sham.c
    lines 572-601): in-order delivery with truncation to the remaining
    application-buffer capacity, out-of-order buffering for a segment
    ahead of the cursor, and a silent discard of a duplicate behind it. -/
def sham_recv_core (conn : sham_connection) (packet : sham_packet)
    (buffer : List Nat) (buffer_pos len : Nat) :
    sham_connection × List Nat × Nat :=
  if packet.header.seq_num = conn.recv_seq then
    let copy_len :=
      if len - buffer_pos < packet.data_len then len - buffer_pos
      else packet.data_len
    let buffer1 := buffer ++ packet.data.take copy_len
    let pos1 := buffer_pos + copy_len
    let conn1 :=
      { conn with recv_seq := (conn.recv_seq + packet.data_len) % M32 }
    let conn2 := sham_update_recv_buffer conn1 (packet.data_len : Int)
    let d := sham_deliver_ooo_packets conn2 buffer1 pos1 len
    (sham_update_recv_buffer d.1 (-(copy_len : Int)), d.2.1, d.2.2)
  else if conn.recv_seq < packet.header.seq_num then
    (sham_buffer_ooo_packet conn packet, buffer, buffer_pos)
  else (conn, buffer, buffer_pos)

/-- One iteration of the sham_recv loop body (src/sham.c lines 562-607)
    for an already-decoded arriving packet: the data placement above,
    then the cumulative ACK (src/sham.c lines 603-606) emitted for any
    arrival with a non-empty payload, built from the post-placement
    connection. -/
def sham_recv_step (conn : sham_connection) (packet : sham_packet)
    (buffer : List Nat) (buffer_pos len : Nat) : RecvOut :=
  if 0 < packet.data_len then
    let r := sham_recv_core conn packet buffer buffer_pos len
    let ack :=
      sham_create_packet_with_conn r.1 r.1.send_seq r.1.recv_seq SHAM_ACK
        none 0
    { conn := r.1, buffer := r.2.1, buffer_pos := r.2.2, ack := some ack }
  else { conn := conn, buffer := buffer, buffer_pos := buffer_pos, ack := none }

/-- The receive loop of sham_recv (src/sham.c lines 560-608): packets are
    drawn from an explicit arrival oracle; `none` is a timed-out wait,
    which breaks the loop (as does an exhausted oracle). -/
def recvLoop : List (Option sham_packet) → sham_connection → List Nat →
    Nat → Nat → sham_connection × List Nat × Nat
  | [], conn, buffer, buffer_pos, _ => (conn, buffer, buffer_pos)
  | op :: rest, conn, buffer, buffer_pos, len =>
    if buffer_pos < len then
      match op with
      | none => (conn, buffer, buffer_pos)
      | some packet =>
        let r := sham_recv_step conn packet buffer buffer_pos len
        recvLoop rest r.conn r.buffer r.buffer_pos len
    else (conn, buffer, buffer_pos)

/-- sham_recv (src/sham.c lines 550-611).  Returns the final connection,
    the bytes delivered to the caller's buffer, and the C return value
    (-1 when not ESTABLISHED, the delivered byte count otherwise). -/
def shamRecv (conn : sham_connection) (len : Nat)
    (input : List (Option sham_packet)) :
    sham_connection × List Nat × Int :=
  if conn.state = SHAM_ESTABLISHED then
    let r := recvLoop input conn [] 0 len
    (r.1, r.2.1, (r.2.2 : Int))
  else (conn, [], -1)

/-- The ACK-draining poll at the top of each sham_send iteration
    (src/sham.c lines 469-475): every available packet is read, and those
    carrying the ACK flag are fed to sham_process_ack. -/
def drainAcks (conn : sham_connection) (packets : List sham_packet) :
    sham_connection :=
  packets.foldl
    (fun c p =>
      if p.header.flags.land SHAM_ACK ≠ 0 then sham_process_ack c p else c)
    conn

/-- One iteration of the main sham_send loop body (src/sham.c lines
    466-529): drain ACKs, run the timeout scan (whose return value the C
    discards at this call site), and---unless the packet-count or
    flow-control gate defers---emit the next chunk and slide it into the
    send window.  The environment supplies the packets drained this
    iteration and the current time.  Returns the new state, the new
    `bytes_sent`, and the emitted data packet, if any. -/
def sham_send_iter (conn : sham_connection) (data : List Nat)
    (len bytes_sent : Nat) (envPackets : List sham_packet) (now : Int) :
    sham_connection × Nat × Option sham_packet :=
  let c1 := drainAcks conn envPackets
  let c2 := (sham_handle_timeout c1 now).1
  if SHAM_WINDOW_SIZE ≤ c2.window_count then (c2, bytes_sent, none)
  else
    let chunk_size :=
      if SHAM_MAX_DATA_SIZE < len - bytes_sent then SHAM_MAX_DATA_SIZE
      else len - bytes_sent
    if sham_can_send_data c2 chunk_size then
      let data_packet :=
        sham_create_packet_with_conn c2 c2.send_seq c2.recv_seq 0
          (some (data.drop bytes_sent)) chunk_size
      let c3 := sham_update_flow_control c2 chunk_size
      let window_idx := (c3.window_start + c3.window_count) % SHAM_WINDOW_SIZE
      let entry : sham_window_entry :=
        { packet := data_packet, send_time := now, retries := 0, acked := false }
      let c4 :=
        { c3 with
          send_window := aSet c3.send_window window_idx entry
          window_count := c3.window_count + 1
          send_seq := (c3.send_seq + chunk_size) % M32 }
      (c4, bytes_sent + chunk_size, some data_packet)
    else (c2, bytes_sent, none)

/-- The chunk-emission phase of sham_send (`while (bytes_sent < len)`,
    src/sham.c lines 466-529), driven by the per-iteration environment
    `env : iteration ↦ (packets drained, current time)`.  `none` means
    the fuel ran out with the loop still running; on exit the iteration
    counter, connection and `bytes_sent` are returned. -/
def sendPhase (env : Nat → List sham_packet × Int) :
    Nat → Nat → sham_connection → List Nat → Nat → Nat →
    Option (Nat × sham_connection × Nat)
  | 0, iter, conn, _, len, bytes_sent =>
    if bytes_sent < len then none else some (iter, conn, bytes_sent)
  | fuel + 1, iter, conn, data, len, bytes_sent =>
    if bytes_sent < len then
      let r := sham_send_iter conn data len bytes_sent (env iter).1 (env iter).2
      sendPhase env fuel (iter + 1) r.1 data len r.2.1
    else some (iter, conn, bytes_sent)

/-- The drain phase of sham_send (`while (conn->window_count > 0)`,
    src/sham.c lines 532-543): one timed packet wait per iteration (the
    head of the oracle's packet list for that iteration, if any), ACK
    processing, then the timeout scan with its return value again
    discarded.  `none` means the fuel ran out with the window still
    non-empty. -/
def drainLoop (env : Nat → List sham_packet × Int) :
    Nat → Nat → sham_connection → Option sham_connection
  | 0, _, _ => none
  | fuel + 1, iter, conn =>
    if conn.window_count = 0 then some conn
    else
      let c1 :=
        match (env iter).1.head? with
        | some p =>
          if p.header.flags.land SHAM_ACK ≠ 0 then sham_process_ack conn p
          else conn
        | none => conn
      let c2 := (sham_handle_timeout c1 (env iter).2).1
      drainLoop env fuel (iter + 1) c2

/-- sham_send (src/sham.c lines 448-547).  Returns `none` when the fuel
    ran out with the call still looping, and `some (conn, ret)` when the
    C function returns, `ret` being its int return value. -/
def shamSend (conn : sham_connection) (data : List Nat) (len : Nat)
    (env : Nat → List sham_packet × Int) (fuel : Nat) :
    Option (sham_connection × Int) :=
  if conn.state = SHAM_ESTABLISHED then
    match sendPhase env fuel 0 conn data len 0 with
    | none => none
    | some (iter, c, bytes_sent) =>
      match drainLoop env fuel iter c with
      | none => none
      | some c' => some (c', (bytes_sent : Int))
  else some (conn, -1)

/-- The wait loop of sham_close (src/sham.c lines 936-967): each
    iteration draws one packet (or a timeout) from the oracle; an ACK
    advances to FIN_WAIT_2, a FIN updates recv_seq, emits the final ACK
    (built with plain sham_create_packet) and closes.  Emitted packets
    are accumulated.  `none` = fuel exhausted while still waiting. -/
def closeLoop : Nat → List (Option sham_packet) → sham_connection →
    Bool → Bool → List sham_packet →
    Option (sham_connection × List sham_packet)
  | 0, _, _, _, _, _ => none
  | fuel + 1, input, conn, ack_received, fin_received, sent =>
    if (ack_received = false ∨ fin_received = false) ∧ conn.state ≠ SHAM_CLOSED then
      match input with
      | [] => closeLoop fuel [] conn ack_received fin_received sent
      | op :: rest =>
        match op with
        | none => closeLoop fuel rest conn ack_received fin_received sent
        | some packet =>
          let (conn1, ack1) :=
            if packet.header.flags.land SHAM_ACK ≠ 0 ∧ ack_received = false then
              ({ conn with state := SHAM_FIN_WAIT_2 }, true)
            else (conn, ack_received)
          if packet.header.flags.land SHAM_FIN ≠ 0 ∧ fin_received = false then
            let conn2 :=
              { conn1 with recv_seq := (packet.header.seq_num + 1) % M32 }
            let final_ack :=
              sham_create_packet conn2.send_seq conn2.recv_seq SHAM_ACK none 0
            let conn3 := { conn2 with state := SHAM_CLOSED }
            closeLoop fuel rest conn3 ack1 true (sent ++ [final_ack])
          else closeLoop fuel rest conn1 ack1 fin_received sent
    else some (conn, sent)

/-- sham_close (src/sham.c lines 912-970).  Returns the final connection
    and every packet it put on the wire (the FIN, then the ACK for the
    peer's FIN); `none` when not ESTABLISHED (the C returns -1) or when
    the fuel ran out. -/
def shamClose (conn : sham_connection)
    (input : List (Option sham_packet)) (fuel : Nat) :
    Option (sham_connection × List sham_packet) :=
  if conn.state = SHAM_ESTABLISHED then
    let fin :=
      sham_create_packet conn.send_seq conn.recv_seq SHAM_FIN none 0
    let conn1 :=
      { conn with
        send_seq := (conn.send_seq + 1) % M32
        state := SHAM_FIN_WAIT_1 }
    match closeLoop fuel input conn1 false false [fin] with
    | none => none
    | some (c, sent) => some (c, sent)
  else none

/-! ## State predicates used by the claims -/

/-- The ring-buffer index of the `i`-th in-window entry. -/
def winIdx (c : sham_connection) (i : Nat) : Nat :=
  (c.window_start + i) % SHAM_WINDOW_SIZE

/-- The `i`-th in-window entry (offset `i` from `window_start`). -/
def winEntry (c : sham_connection) (i : Nat) : sham_window_entry :=
  aGet c.send_window (winIdx c i) zeroWindowEntry

/-- End sequence number of a window entry's segment (spec §4.4.1). -/
def entryEnd (e : sham_window_entry) : Nat :=
  e.packet.header.seq_num + e.packet.data_len

/-- Well-formedness of the sender's sliding window, the spec's §3
    invariants for the send side: the ring holds `window_count ≤ W`
    contiguous unacknowledged segments starting at `send_base` and ending
    at `send_seq` (with no 32-bit wraparound inside the window, as the
    spec's §8.1 assumes). -/
def SendInv (c : sham_connection) : Prop :=
  c.send_window.length = SHAM_WINDOW_SIZE ∧
  c.window_start < SHAM_WINDOW_SIZE ∧
  c.window_count ≤ SHAM_WINDOW_SIZE ∧
  (c.window_count = 0 → c.send_base = c.send_seq) ∧
  (c.window_count ≠ 0 →
    (winEntry c 0).packet.header.seq_num = c.send_base) ∧
  (∀ i, i < c.window_count - 1 →
    (winEntry c (i + 1)).packet.header.seq_num = entryEnd (winEntry c i)) ∧
  (c.window_count ≠ 0 →
    entryEnd (winEntry c (c.window_count - 1)) = c.send_seq) ∧
  (∀ i, i < c.window_count → entryEnd (winEntry c i) < M32)

/-- The `i`-th out-of-order buffer slot. -/
def oooEntryAt (c : sham_connection) (i : Nat) : sham_ooo_entry :=
  aGet c.ooo_buffer i zeroOooEntry

/-- The claimed receiver invariant (spec §3 / §8.3): every valid
    out-of-order slot holds a segment strictly ahead of the in-order
    cursor. -/
def oooInv (c : sham_connection) : Prop :=
  ∀ i, i < SHAM_WINDOW_SIZE → (oooEntryAt c i).valid = true →
    c.recv_seq < (oooEntryAt c i).packet.header.seq_num

/-- Two segments occupy disjoint sequence-number ranges. -/
def segsDisjoint (p q : sham_packet) : Prop :=
  p.header.seq_num + p.data_len ≤ q.header.seq_num ∨
  q.header.seq_num + q.data_len ≤ p.header.seq_num

/-- Soundness of the buffered segments relative to an arriving segment
    `p`: every valid slot holds a non-empty, non-wrapping segment disjoint
    from `p`, the valid slots are pairwise disjoint, and `p` itself is
    non-empty and non-wrapping.  This is exactly the shape of traffic a
    conforming sender produces when no segment is duplicated. -/
def OooSound (c : sham_connection) (p : sham_packet) : Prop :=
  c.ooo_buffer.length = SHAM_WINDOW_SIZE ∧
  (∀ i, i < SHAM_WINDOW_SIZE → (oooEntryAt c i).valid = true →
    0 < (oooEntryAt c i).packet.data_len ∧
    (oooEntryAt c i).packet.header.seq_num +
      (oooEntryAt c i).packet.data_len < M32 ∧
    segsDisjoint (oooEntryAt c i).packet p) ∧
  (∀ i, i < SHAM_WINDOW_SIZE → ∀ j, j < SHAM_WINDOW_SIZE → i ≠ j →
    (oooEntryAt c i).valid = true → (oooEntryAt c j).valid = true →
    segsDisjoint (oooEntryAt c i).packet (oooEntryAt c j).packet) ∧
  0 < p.data_len ∧ p.header.seq_num + p.data_len < M32

/-- Invariant carried through the delivery loop of
    sham_deliver_ooo_packets: valid slots are non-empty, non-wrapping,
    pairwise disjoint and at or ahead of the cursor. -/
def DeliverOk (c : sham_connection) : Prop :=
  c.ooo_buffer.length = SHAM_WINDOW_SIZE ∧
  (∀ i, i < SHAM_WINDOW_SIZE → (oooEntryAt c i).valid = true →
    0 < (oooEntryAt c i).packet.data_len ∧
    (oooEntryAt c i).packet.header.seq_num +
      (oooEntryAt c i).packet.data_len < M32 ∧
    c.recv_seq ≤ (oooEntryAt c i).packet.header.seq_num) ∧
  (∀ i, i < SHAM_WINDOW_SIZE → ∀ j, j < SHAM_WINDOW_SIZE → i ≠ j →
    (oooEntryAt c i).valid = true → (oooEntryAt c j).valid = true →
    segsDisjoint (oooEntryAt c i).packet (oooEntryAt c j).packet)

/-- Number of valid out-of-order slots. -/
def validCount (c : sham_connection) : Nat :=
  c.ooo_buffer.countP (fun e => e.valid)

instance (c : sham_connection) : Decidable (oooInv c) := by
  unfold oooInv
  infer_instance

instance (p q : sham_packet) : Decidable (segsDisjoint p q) := by
  unfold segsDisjoint
  infer_instance

instance (c : sham_connection) : Decidable (SendInv c) := by
  unfold SendInv
  infer_instance

instance (c : sham_connection) (p : sham_packet) :
    Decidable (OooSound c p) := by
  unfold OooSound
  infer_instance

instance (c : sham_connection) : Decidable (DeliverOk c) := by
  unfold DeliverOk
  infer_instance

/-! ## Concrete states and inputs used by counterexamples, failing-input
    evaluations and witnesses.  Each is a state the protocol reaches in an
    ordinary run (constructed from `sham_create_connection` plus the exact
    field updates the handshake and data paths perform). -/

/-- A freshly established receiver-side connection (ISN 0, peer stream
    offset 0), as left by the accept path. -/
def recvR0 : sham_connection :=
  { sham_create_connection 0 with state := SHAM_ESTABLISHED, recv_seq := 0 }

/-- An in-order data segment at stream offset `1024*i` carrying a full
    1024-byte payload. -/
def mssPacket (i : Nat) : sham_packet :=
  { header := { seq_num := 1024 * i, ack_num := 0, flags := 0, window_size := 16384 }
    data := List.replicate 1024 7
    data_len := 1024 }

/-- C7 trace: repeated sham_recv calls with a 1-byte application buffer,
    each consuming the next full-MSS in-order segment; every call charges
    1024 bytes and discharges only the single copied byte. -/
def c7trace : Nat → sham_connection
  | 0 => recvR0
  | n + 1 => (shamRecv (c7trace n) 1 [some (mssPacket n)]).1

/-- C3 trace: the out-of-order segment at offset 1024 arrives twice (a
    network duplicate) and is buffered twice, then the in-order segment
    at offset 0 arrives and triggers delivery. -/
def c3run : sham_connection × List Nat × Int :=
  shamRecv recvR0 4096 [some (mssPacket 1), some (mssPacket 1), some (mssPacket 0)]

/-- C1 failing input: an established sender whose only in-flight segment
    (100 bytes at stream offset 1000) has timed out and already used its
    five retransmission attempts. -/
def c1stuck : sham_connection :=
  { sham_create_connection 1000 with
    state := SHAM_ESTABLISHED
    send_seq := 1100
    last_byte_sent := 1100
    window_count := 1
    send_window :=
      aSet (List.replicate SHAM_WINDOW_SIZE zeroWindowEntry) 0
        { packet :=
            { header := { seq_num := 1000, ack_num := 0, flags := 0, window_size := 16384 }
              data := List.replicate 100 1
              data_len := 100 }
          send_time := 0
          retries := SHAM_MAX_RETRIES
          acked := false } }

/-- C1 environment: nothing ever arrives, and the clock is far past the
    entry's retransmission timeout. -/
def c1env : Nat → List sham_packet × Int := fun _ => ([], 1000000)

/-- A freshly established sender-side connection with ISN 1000. -/
def sendC0 : sham_connection :=
  { sham_create_connection 1000 with state := SHAM_ESTABLISHED }

/-- C2 witness environment: nothing during the emission iteration, then
    an ACK covering the emitted 5-byte segment. -/
def c2env : Nat → List sham_packet × Int := fun i =>
  if i = 1 then
    ([{ header := { seq_num := 0, ack_num := 1005, flags := 2, window_size := 16384 }
        data := [], data_len := 0 }], 0)
  else ([], 0)

/-- C4 trace, first emission: 1024 of 1025 bytes. -/
def c4it1 : sham_connection × Nat × Option sham_packet :=
  sham_send_iter sendC0 (List.replicate 1025 3) 1025 0 [] 0

/-- C4 trace, second emission: the remaining byte; 1025 bytes in flight. -/
def c4it2 : sham_connection × Nat × Option sham_packet :=
  sham_send_iter c4it1.1 (List.replicate 1025 3) 1025 c4it1.2.1 [] 0

/-- C4: a legitimate receiver ACK: nothing new acknowledged (the data
    segments are still in flight, this ACK answered an out-of-order
    arrival) and an advertised window shrunk to the MSS floor because the
    receive buffer is nearly full. -/
def c4ack : sham_packet :=
  { header := { seq_num := 0, ack_num := 1000, flags := 2, window_size := 1024 }
    data := [], data_len := 0 }

/-- C4: the sender state at the observation point right after that ACK
    is processed inside sham_send's drain poll. -/
def c4post : sham_connection := sham_process_ack c4it2.1 c4ack

/-- C5: an established endpoint about to close, with an empty receive
    buffer (recv_buffer_used = 0). -/
def c5conn : sham_connection :=
  { sham_create_connection 500 with state := SHAM_ESTABLISHED, recv_seq := 77 }

/-- C5: the peer's combined ACK+FIN answering our FIN. -/
def c5finPkt : sham_packet :=
  { header := { seq_num := 77, ack_num := 501, flags := 6, window_size := 16384 }
    data := [], data_len := 0 }

/-- C5: the full sham_close run: emits the FIN, then the final ACK. -/
def c5run : Option (sham_connection × List sham_packet) :=
  shamClose c5conn [some c5finPkt] 3

/-- C6: a 1037-byte datagram, one byte past the spec's upper bound. -/
def c6dg : List Nat := List.replicate 1037 9

/-- C8: an established sender that has already seen bytes up to 500
    acknowledged (empty window). -/
def c8conn : sham_connection :=
  { sham_create_connection 500 with state := SHAM_ESTABLISHED }

/-- C8: a stale ACK (cumulative value 400 < last_byte_acked = 500)
    whose advertised window differs from the current peer_window_size. -/
def c8ack : sham_packet :=
  { header := { seq_num := 0, ack_num := 400, flags := 2, window_size := 1024 }
    data := [], data_len := 0 }

/-! ## Array access lemmas -/

theorem aSet_length (l : List α) (i : Nat) (x : α) :
    (aSet l i x).length = l.length := by
  simp [aSet]

theorem aGet_aSet (l : List α) (i j : Nat) (x d : α) :
    aGet (aSet l i x) j d =
      if i = j ∧ i < l.length then x else aGet l j d := by
  induction l generalizing i j with
  | nil => simp [aGet, aSet]
  | cons a t ih =>
    cases i with
    | zero =>
      cases j with
      | zero => simp [aGet, aSet]
      | succ j => simp [aGet, aSet, List.getD]
    | succ i =>
      cases j with
      | zero => simp [aGet, aSet, List.getD]
      | succ j =>
        have := ih i j
        simp only [aGet, aSet, List.set, List.getD_cons_succ, List.length_cons] at *
        rw [this]
        by_cases h : i = j ∧ i < t.length
        · rw [if_pos h, if_pos ⟨by omega, by omega⟩]
        · rw [if_neg h, if_neg (by omega)]

theorem aGet_aSet_self (l : List α) (i : Nat) (x d : α) (h : i < l.length) :
    aGet (aSet l i x) i d = x := by
  rw [aGet_aSet, if_pos ⟨rfl, h⟩]

theorem aGet_aSet_ne (l : List α) (i j : Nat) (x d : α) (h : i ≠ j) :
    aGet (aSet l i x) j d = aGet l j d := by
  rw [aGet_aSet, if_neg (by tauto)]

theorem aGet_beyond (l : List α) (i : Nat) (d : α) (h : l.length ≤ i) :
    aGet l i d = d := by
  simp [aGet, List.getD, List.getElem?_eq_none h]

theorem countP_aSet (l : List α) (p : α → Bool) (i : Nat) (x d : α)
    (h : i < l.length) :
    (aSet l i x).countP p + (if p (aGet l i d) then 1 else 0) =
      l.countP p + (if p x then 1 else 0) := by
  induction l generalizing i with
  | nil => simp at h
  | cons a t ih =>
    cases i with
    | zero =>
      simp only [aSet, List.set, aGet, List.getD_cons_zero, List.countP_cons]
      by_cases hx : p x <;> by_cases ha : p a <;> simp [hx, ha] <;> omega
    | succ i =>
      have hlt : i < t.length := by simpa using h
      have := ih i hlt
      simp only [aSet, List.set, aGet, List.getD_cons_succ,
        List.countP_cons] at *
      by_cases hx : p x <;> by_cases ha : p a <;> simp [hx, ha] at * <;> omega

theorem countP_le_len (l : List α) (p : α → Bool) :
    l.countP p ≤ l.length := by
  induction l with
  | nil => simp
  | cons a t ih =>
    simp only [List.countP_cons, List.length_cons]
    by_cases h : p a <;> simp [h] <;> omega

/-! ## Frame lemmas: which fields each operation leaves untouched -/

theorem urb_frame (c : sham_connection) (n : Int) :
    (sham_update_recv_buffer c n).recv_seq = c.recv_seq ∧
    (sham_update_recv_buffer c n).ooo_buffer = c.ooo_buffer ∧
    (sham_update_recv_buffer c n).recv_buffer_size = c.recv_buffer_size ∧
    (sham_update_recv_buffer c n).send_seq = c.send_seq := by
  unfold sham_update_recv_buffer
  dsimp only
  split_ifs <;> exact ⟨rfl, rfl, rfl, rfl⟩

/-! ## C10 — oversize or NULL payloads silently become empty packets -/

/-- C10: for every call to sham_create_packet (and hence
    sham_create_packet_with_conn) with data_len > 1024 or a null data
    pointer, the returned packet has data_len = 0 and an empty payload:
    the oversize payload is silently replaced by an empty one rather
    than rejected or truncated. -/
theorem create_packet_oversize_or_null_empty (conn : sham_connection)
    (seq ack flags data_len : Nat) (data : Option (List Nat))
    (h : data = none ∨ SHAM_MAX_DATA_SIZE < data_len) :
    (sham_create_packet seq ack flags data data_len).data_len = 0 ∧
    (sham_create_packet seq ack flags data data_len).data = [] ∧
    (sham_create_packet_with_conn conn seq ack flags data data_len).data_len = 0 ∧
    (sham_create_packet_with_conn conn seq ack flags data data_len).data = [] := by
  have hbase :
      (sham_create_packet seq ack flags data data_len).data_len = 0 ∧
      (sham_create_packet seq ack flags data data_len).data = [] := by
    rcases h with h | h
    · subst h; exact ⟨rfl, rfl⟩
    · cases data with
      | none => exact ⟨rfl, rfl⟩
      | some d =>
        have hcond : ¬(0 < data_len ∧ data_len ≤ SHAM_MAX_DATA_SIZE) := by
          intro hc; exact absurd hc.2 (by omega)
        simp [sham_create_packet, hcond]
  refine ⟨hbase.1, hbase.2, ?_, ?_⟩
  · simpa [sham_create_packet_with_conn] using hbase.1
  · simpa [sham_create_packet_with_conn] using hbase.2

/-- C10 witness: an oversize (2000-byte) payload becomes an empty packet. -/
theorem create_packet_oversize_or_null_empty_w :
    (sham_create_packet 1 2 0 (some (List.replicate 2000 5)) 2000).data_len = 0 :=
  (create_packet_oversize_or_null_empty (sham_create_connection 0) 1 2 0 2000
    (some (List.replicate 2000 5)) (Or.inr (by decide))).1

/-! ## C7 — receive-buffer accounting -/

set_option maxRecDepth 20000 in
/-- C7 counterexample: after 33 sham_recv calls that each deliver one
    byte of a full-MSS in-order segment (charging 1024, discharging 1),
    recv_buffer_used = 33759 exceeds recv_buffer_size = 32768: the charge
    path has no upper bound, refuting `recv_buffer_used ≤
    recv_buffer_size` as an all-states invariant. -/
theorem recv_buffer_used_exceeds_size :
    (c7trace 33).recv_buffer_used = 33759 ∧
    (c7trace 33).recv_buffer_size = 32768 ∧
    ¬((c7trace 33).recv_buffer_used ≤ (c7trace 33).recv_buffer_size) := by
  decide

/-- C7 amended: sham_update_recv_buffer charges a positive count by
    adding it to recv_buffer_used modulo 2^16 with no cap at
    recv_buffer_size, and discharges a delivered count with saturation
    at zero (never underflowing, never increasing the counter). -/
theorem update_recv_buffer_charge_discharge (c : sham_connection) (f : Nat)
    (hf : 0 < f) :
    (sham_update_recv_buffer c (f : Int)).recv_buffer_used =
      (c.recv_buffer_used + f) % M16 ∧
    (sham_update_recv_buffer c (-(f : Int))).recv_buffer_used =
      (if f ≤ c.recv_buffer_used then c.recv_buffer_used - f else 0) ∧
    (sham_update_recv_buffer c (-(f : Int))).recv_buffer_used ≤
      c.recv_buffer_used := by
  have hpos : (0 : Int) < (f : Int) := by exact_mod_cast hf
  have hneg : ¬ (0 : Int) < -(f : Int) := by omega
  have hneg2 : -(f : Int) < 0 := by omega
  have htn : ((f : Int)).toNat = f := Int.toNat_natCast f
  have htn2 : (-(-(f : Int))).toNat = f := by simp
  refine ⟨by simp [sham_update_recv_buffer, hpos, htn], ?_, ?_⟩
  · unfold sham_update_recv_buffer
    dsimp only
    rw [if_neg hneg, if_pos hneg2, htn2]
    split_ifs <;> rfl
  · unfold sham_update_recv_buffer
    dsimp only
    rw [if_neg hneg, if_pos hneg2, htn2]
    split_ifs <;> simp

/-! ## Sender window lemmas -/

theorem SendInv_frame (c c' : sham_connection)
    (hseq : c'.send_seq = c.send_seq) (hbase : c'.send_base = c.send_base)
    (hws : c'.window_start = c.window_start)
    (hwc : c'.window_count = c.window_count)
    (hlen : c'.send_window.length = c.send_window.length)
    (hpk : ∀ j, (aGet c'.send_window j zeroWindowEntry).packet =
      (aGet c.send_window j zeroWindowEntry).packet)
    (hinv : SendInv c) : SendInv c' := by
  obtain ⟨h1, h2, h3, h4, h5, h6, h7, h8⟩ := hinv
  have hent : ∀ i, (winEntry c' i).packet = (winEntry c i).packet := by
    intro i
    simp only [winEntry, winIdx, hws]
    exact hpk _
  have hend : ∀ i, entryEnd (winEntry c' i) = entryEnd (winEntry c i) := by
    intro i
    simp only [entryEnd, hent]
  refine ⟨by omega, by omega, by omega, ?_, ?_, ?_, ?_, ?_⟩
  · intro h; rw [hbase, hseq]; exact h4 (by omega)
  · intro h; rw [hent, hbase]; exact h5 (by omega)
  · intro i hi; rw [hent, hend]; exact h6 i (by omega)
  · intro h; rw [hwc, hend, hseq]; exact h7 (by omega)
  · intro i hi; rw [hend]; exact h8 i (by omega)

/-- Popping the front entry (one iteration of the cumulative-ACK loop)
    preserves the window invariant and never moves `send_base` back. -/
theorem SendInv_pop (c : sham_connection) (hinv : SendInv c)
    (hc : c.window_count ≠ 0) :
    SendInv { c with
      send_window := aSet c.send_window c.window_start
        { aGet c.send_window c.window_start zeroWindowEntry with acked := true }
      send_base :=
        ((aGet c.send_window c.window_start zeroWindowEntry).packet.header.seq_num +
         (aGet c.send_window c.window_start zeroWindowEntry).packet.data_len) % M32
      window_start := (c.window_start + 1) % SHAM_WINDOW_SIZE
      window_count := c.window_count - 1 } ∧
    c.send_base ≤
      ((aGet c.send_window c.window_start zeroWindowEntry).packet.header.seq_num +
       (aGet c.send_window c.window_start zeroWindowEntry).packet.data_len) % M32 := by
  obtain ⟨h1, h2, h3, h4, h5, h6, h7, h8⟩ := hinv
  have hW : SHAM_WINDOW_SIZE = 10 := rfl
  have hws0 : winIdx c 0 = c.window_start := by
    simp only [winIdx, Nat.add_zero]
    exact Nat.mod_eq_of_lt h2
  have he0 : winEntry c 0 = aGet c.send_window c.window_start zeroWindowEntry := by
    rw [winEntry, hws0]
  have hend0lt : entryEnd (winEntry c 0) < M32 := h8 0 (by omega)
  have hmod : ((aGet c.send_window c.window_start zeroWindowEntry).packet.header.seq_num +
      (aGet c.send_window c.window_start zeroWindowEntry).packet.data_len) % M32 =
      entryEnd (winEntry c 0) := by
    rw [he0] at hend0lt ⊢
    exact Nat.mod_eq_of_lt hend0lt
  set c' : sham_connection :=
    { c with
      send_window := aSet c.send_window c.window_start
        { aGet c.send_window c.window_start zeroWindowEntry with acked := true }
      send_base :=
        ((aGet c.send_window c.window_start zeroWindowEntry).packet.header.seq_num +
         (aGet c.send_window c.window_start zeroWindowEntry).packet.data_len) % M32
      window_start := (c.window_start + 1) % SHAM_WINDOW_SIZE
      window_count := c.window_count - 1 } with hc'
  have hcw : c'.window_count = c.window_count - 1 := rfl
  have hshift : ∀ i, i < c.window_count - 1 → winEntry c' i = winEntry c (i + 1) := by
    intro i hi
    have hiidx : winIdx c' i = winIdx c (i + 1) := by
      simp only [winIdx, hc', SHAM_WINDOW_SIZE]
      omega
    have hne : c.window_start ≠ winIdx c (i + 1) := by
      simp only [winIdx, SHAM_WINDOW_SIZE] at *
      omega
    simp only [winEntry, hiidx, hc']
    exact aGet_aSet_ne _ _ _ _ _ hne
  refine ⟨⟨?_, ?_, ?_, ?_, ?_, ?_, ?_, ?_⟩, ?_⟩
  · show (aSet c.send_window c.window_start _).length = SHAM_WINDOW_SIZE
    rw [aSet_length]; exact h1
  · show (c.window_start + 1) % SHAM_WINDOW_SIZE < SHAM_WINDOW_SIZE
    simp only [SHAM_WINDOW_SIZE]; omega
  · show c.window_count - 1 ≤ SHAM_WINDOW_SIZE
    omega
  · intro h
    show c'.send_base = c.send_seq
    have hc1 : c.window_count = 1 := by
      rw [hcw] at h; omega
    have : c'.send_base = entryEnd (winEntry c 0) := hmod
    rw [this]
    have := h7 hc
    rw [hc1] at this
    simpa using this
  · intro h
    rw [hcw] at h
    rw [hshift 0 (by omega)]
    show (winEntry c 1).packet.header.seq_num = c'.send_base
    have hb : c'.send_base = entryEnd (winEntry c 0) := hmod
    rw [hb]
    exact h6 0 (by omega)
  · intro i hi
    rw [hcw] at hi
    rw [hshift i (by omega), hshift (i + 1) (by omega)]
    exact h6 (i + 1) (by omega)
  · intro h
    rw [hcw] at h ⊢
    rw [hshift (c.window_count - 1 - 1) (by omega)]
    show entryEnd (winEntry c (c.window_count - 1 - 1 + 1)) = c.send_seq
    have : c.window_count - 1 - 1 + 1 = c.window_count - 1 := by omega
    rw [this]
    exact h7 hc
  · intro i hi
    rw [hcw] at hi
    rw [hshift i (by omega)]
    exact h8 (i + 1) (by omega)
  · rw [hmod]
    have hfst := h5 hc
    rw [he0] at hfst
    rw [he0]
    simp only [entryEnd] at *
    omega

/-- The cumulative-ACK loop, run with fuel equal to window_count (as
    sham_process_ack does), preserves the window invariant, never
    regresses send_base, and never touches send_seq. -/
theorem ackLoop_spec : ∀ (fuel : Nat) (c : sham_connection) (a : Nat),
    SendInv c → c.window_count = fuel →
    SendInv (ackLoop fuel c a) ∧
    c.send_base ≤ (ackLoop fuel c a).send_base ∧
    (ackLoop fuel c a).send_seq = c.send_seq := by
  intro fuel
  induction fuel with
  | zero => intro c a hinv hfc; exact ⟨hinv, le_refl _, rfl⟩
  | succ n ih =>
    intro c a hinv hfc
    show SendInv (ackLoop (n + 1) c a) ∧ _ ∧ _
    unfold ackLoop
    rw [if_neg (by omega)]
    dsimp only
    split_ifs with hle
    · have hpop := SendInv_pop c hinv (by omega)
      have hrec := ih _ a hpop.1 (by simpa using by omega)
      refine ⟨hrec.1, le_trans hpop.2 hrec.2.1, hrec.2.2⟩
    · exact ⟨hinv, le_refl _, rfl⟩

/-- sham_process_ack preserves the window invariant, never regresses
    send_base, and never changes send_seq. -/
theorem process_ack_spec (c : sham_connection) (a : sham_packet)
    (hinv : SendInv c) :
    SendInv (sham_process_ack c a) ∧
    c.send_base ≤ (sham_process_ack c a).send_base ∧
    (sham_process_ack c a).send_seq = c.send_seq := by
  unfold sham_process_ack
  dsimp only
  split_ifs with h
  · exact ackLoop_spec _ _ _ hinv rfl
  · exact ackLoop_spec _ _ _ hinv rfl

/-- The retransmission scan changes only retry counters and timestamps:
    every scalar window field and every entry's packet is preserved. -/
theorem timeoutGo_frame (now : Int) : ∀ (fuel i : Nat) (c : sham_connection),
    (timeoutGo now fuel c i).1.send_seq = c.send_seq ∧
    (timeoutGo now fuel c i).1.send_base = c.send_base ∧
    (timeoutGo now fuel c i).1.window_start = c.window_start ∧
    (timeoutGo now fuel c i).1.window_count = c.window_count ∧
    (timeoutGo now fuel c i).1.send_window.length = c.send_window.length ∧
    (timeoutGo now fuel c i).1.last_byte_sent = c.last_byte_sent ∧
    (timeoutGo now fuel c i).1.last_byte_acked = c.last_byte_acked ∧
    (timeoutGo now fuel c i).1.peer_window_size = c.peer_window_size ∧
    (timeoutGo now fuel c i).1.state = c.state ∧
    (timeoutGo now fuel c i).1.recv_seq = c.recv_seq ∧
    ∀ j, (aGet (timeoutGo now fuel c i).1.send_window j zeroWindowEntry).packet =
      (aGet c.send_window j zeroWindowEntry).packet := by
  intro fuel
  induction fuel with
  | zero =>
    intro i c
    exact ⟨rfl, rfl, rfl, rfl, rfl, rfl, rfl, rfl, rfl, rfl, fun j => rfl⟩
  | succ n ih =>
    intro i c
    show (timeoutGo now (n + 1) c i).1.send_seq = c.send_seq ∧ _
    unfold timeoutGo
    dsimp only
    split_ifs with h1 h2 h3
    · exact ⟨rfl, rfl, rfl, rfl, rfl, rfl, rfl, rfl, rfl, rfl, fun j => rfl⟩
    · -- retransmit branch: packet preserved inside the updated entry
      obtain ⟨f1, f2, f3, f4, f5, f6, f7, f8, f9, f10, f11⟩ :=
        ih (i + 1)
          { c with
            send_window :=
                aSet c.send_window ((c.window_start + i) % SHAM_WINDOW_SIZE)
                  ({ aGet c.send_window
                       ((c.window_start + i) % SHAM_WINDOW_SIZE)
                       zeroWindowEntry with
                     retries :=
                       (aGet c.send_window
                         ((c.window_start + i) % SHAM_WINDOW_SIZE)
                         zeroWindowEntry).retries + 1
                     send_time := now }) }
      refine ⟨f1, f2, f3, f4, ?_, f6, f7, f8, f9, f10, ?_⟩
      · rw [f5]
        exact aSet_length _ _ _
      · intro j
        rw [f11 j]
        show (aGet (aSet c.send_window _ _) j zeroWindowEntry).packet =
          (aGet c.send_window j zeroWindowEntry).packet
        rw [aGet_aSet]
        split_ifs with hj
        · rw [← hj.1]
        · rfl
    · exact ih (i + 1) c
    · exact ⟨rfl, rfl, rfl, rfl, rfl, rfl, rfl, rfl, rfl, rfl, fun j => rfl⟩

theorem handle_timeout_inv (c : sham_connection) (now : Int)
    (hinv : SendInv c) :
    SendInv (sham_handle_timeout c now).1 ∧
    (sham_handle_timeout c now).1.send_seq = c.send_seq ∧
    (sham_handle_timeout c now).1.send_base = c.send_base ∧
    (sham_handle_timeout c now).1.window_count = c.window_count := by
  have hf := timeoutGo_frame now c.window_count 0 c
  exact ⟨SendInv_frame _ _ hf.1 hf.2.1 hf.2.2.1 hf.2.2.2.1 hf.2.2.2.2.1
    hf.2.2.2.2.2.2.2.2.2.2 hinv, hf.1, hf.2.1, hf.2.2.2.1⟩

theorem drainAcks_spec (ps : List sham_packet) : ∀ (c : sham_connection),
    SendInv c →
    SendInv (drainAcks c ps) ∧
    (drainAcks c ps).send_seq = c.send_seq := by
  induction ps with
  | nil => intro c hinv; exact ⟨hinv, rfl⟩
  | cons p rest ih =>
    intro c hinv
    have hstep :
        SendInv (if p.header.flags.land SHAM_ACK ≠ 0 then
          sham_process_ack c p else c) ∧
        (if p.header.flags.land SHAM_ACK ≠ 0 then
          sham_process_ack c p else c).send_seq = c.send_seq := by
      split_ifs with h
      · exact ⟨(process_ack_spec c p hinv).1, (process_ack_spec c p hinv).2.2⟩
      · exact ⟨hinv, rfl⟩
    have hrest := ih _ hstep.1
    have hunf : drainAcks c (p :: rest) =
        drainAcks (if p.header.flags.land SHAM_ACK ≠ 0 then
          sham_process_ack c p else c) rest := rfl
    rw [hunf]
    exact ⟨hrest.1, by rw [hrest.2, hstep.2]⟩

/-- Appending a freshly emitted segment stamped with the current
    send_seq at the tail of the ring preserves the window invariant. -/
theorem SendInv_push (c : sham_connection) (pkt : sham_packet) (t : Int)
    (hinv : SendInv c) (hwc : c.window_count < SHAM_WINDOW_SIZE)
    (hseq : pkt.header.seq_num = c.send_seq)
    (hwrapE : c.send_seq + pkt.data_len < M32) :
    SendInv { c with
      send_window := aSet c.send_window
        ((c.window_start + c.window_count) % SHAM_WINDOW_SIZE)
        { packet := pkt, send_time := t, retries := 0, acked := false }
      window_count := c.window_count + 1
      send_seq := (c.send_seq + pkt.data_len) % M32 } := by
  obtain ⟨h1, h2, h3, h4, h5, h6, h7, h8⟩ := hinv
  set c' : sham_connection :=
    { c with
      send_window := aSet c.send_window
        ((c.window_start + c.window_count) % SHAM_WINDOW_SIZE)
        { packet := pkt, send_time := t, retries := 0, acked := false }
      window_count := c.window_count + 1
      send_seq := (c.send_seq + pkt.data_len) % M32 } with hc'
  have hcw : c'.window_count = c.window_count + 1 := rfl
  have hkeep : ∀ i, i < c.window_count → winEntry c' i = winEntry c i := by
    intro i hi
    have hne : (c.window_start + c.window_count) % SHAM_WINDOW_SIZE ≠
        winIdx c i := by
      simp only [winIdx, SHAM_WINDOW_SIZE] at *
      omega
    show aGet (aSet c.send_window _ _) (winIdx c' i) zeroWindowEntry = _
    have hidx : winIdx c' i = winIdx c i := rfl
    rw [hidx]
    exact aGet_aSet_ne _ _ _ _ _ hne
  have hnew : winEntry c' c.window_count =
      { packet := pkt, send_time := t, retries := 0, acked := false } := by
    show aGet (aSet c.send_window _ _) (winIdx c' c.window_count)
      zeroWindowEntry = _
    have hidx : winIdx c' c.window_count =
        (c.window_start + c.window_count) % SHAM_WINDOW_SIZE := rfl
    rw [hidx]
    refine aGet_aSet_self _ _ _ _ ?_
    rw [h1]
    simp only [SHAM_WINDOW_SIZE]
    omega
  have hseqmod : c'.send_seq = c.send_seq + pkt.data_len := by
    show (c.send_seq + pkt.data_len) % M32 = _
    exact Nat.mod_eq_of_lt hwrapE
  refine ⟨?_, ?_, ?_, ?_, ?_, ?_, ?_, ?_⟩
  · show (aSet c.send_window _ _).length = SHAM_WINDOW_SIZE
    rw [aSet_length]; exact h1
  · exact h2
  · show c.window_count + 1 ≤ SHAM_WINDOW_SIZE
    omega
  · intro h
    exact absurd h (by simp)
  · intro _
    show (winEntry c' 0).packet.header.seq_num = c.send_base
    by_cases h0 : c.window_count = 0
    · have : winEntry c' 0 = winEntry c' c.window_count := by rw [h0]
      rw [this, hnew]
      show pkt.header.seq_num = c.send_base
      rw [hseq, h4 h0]
    · rw [hkeep 0 (by omega)]
      exact h5 h0
  · intro i hi
    have hi' : i < c.window_count + 1 - 1 := hi
    by_cases hlast : i + 1 = c.window_count
    · have hi0 : i < c.window_count := by omega
      rw [show (i + 1) = c.window_count from hlast, hnew, hkeep i hi0]
      show pkt.header.seq_num = entryEnd (winEntry c i)
      rw [hseq]
      have : i = c.window_count - 1 := by omega
      rw [this]
      exact (h7 (by omega)).symm
    · have hi1 : i + 1 < c.window_count := by omega
      rw [hkeep (i + 1) hi1, hkeep i (by omega)]
      exact h6 i (by omega)
  · intro _
    show entryEnd (winEntry c' (c.window_count + 1 - 1)) = c'.send_seq
    have : c.window_count + 1 - 1 = c.window_count := by omega
    rw [this, hnew, hseqmod]
    show pkt.header.seq_num + pkt.data_len = c.send_seq + pkt.data_len
    rw [hseq]
  · intro i hi
    by_cases hlast : i = c.window_count
    · rw [hlast, hnew]
      show pkt.header.seq_num + pkt.data_len < M32
      rw [hseq]; exact hwrapE
    · rw [hkeep i (by omega)]
      exact h8 i (by omega)

/-- If the flow-control gate admits a non-empty chunk, then after
    last_byte_sent is advanced by that chunk the bytes in flight do not
    exceed the peer's advertised window. -/
theorem canSend_update_bound (c : sham_connection) (k : Nat) (hk : 0 < k)
    (hs : c.last_byte_sent < M32) (ha : c.last_byte_acked < M32)
    (h : sham_can_send_data c k = true) :
    bytesInFlight (sham_update_flow_control c k) ≤ c.peer_window_size := by
  unfold sham_can_send_data bytesInFlight at h
  dsimp only at h
  rw [decide_eq_true_iff] at h
  unfold bytesInFlight sham_update_flow_control
  dsimp only
  simp only [M32] at *
  split_ifs at h ⊢ <;> omega

/-- One send-loop iteration preserves the window invariant, keeps
    bytes_sent within len, and keeps the emitted stream short of 2^32. -/
theorem sham_send_iter_inv (c : sham_connection) (data : List Nat)
    (len bs : Nat) (ps : List sham_packet) (now : Int)
    (hinv : SendInv c) (hwrap : c.send_seq + (len - bs) < M32)
    (hbs : bs < len) :
    SendInv (sham_send_iter c data len bs ps now).1 ∧
    (sham_send_iter c data len bs ps now).1.send_seq +
      (len - (sham_send_iter c data len bs ps now).2.1) < M32 ∧
    (sham_send_iter c data len bs ps now).2.1 ≤ len := by
  obtain ⟨hdA, hdAs⟩ := drainAcks_spec ps c hinv
  obtain ⟨hT, hTs, hTb, hTc⟩ := handle_timeout_inv (drainAcks c ps) now hdA
  have hTseq : (sham_handle_timeout (drainAcks c ps) now).1.send_seq =
      c.send_seq := by rw [hTs, hdAs]
  unfold sham_send_iter
  dsimp only
  set c2 := (sham_handle_timeout (drainAcks c ps) now).1 with hc2
  set chunk := if SHAM_MAX_DATA_SIZE < len - bs then SHAM_MAX_DATA_SIZE
    else len - bs with hchunk
  have hm : SHAM_MAX_DATA_SIZE = 1024 := rfl
  have hch1 : 0 < chunk := by
    rw [hchunk]; split_ifs with h <;> omega
  have hch2 : chunk ≤ SHAM_MAX_DATA_SIZE := by
    rw [hchunk]; split_ifs with h <;> omega
  have hch3 : chunk ≤ len - bs := by
    rw [hchunk]; split_ifs with h <;> omega
  by_cases hfull : SHAM_WINDOW_SIZE ≤ c2.window_count
  · rw [if_pos hfull]
    refine ⟨hT, ?_, ?_⟩
    · show c2.send_seq + (len - bs) < M32
      rw [hTseq]; exact hwrap
    · show bs ≤ len
      omega
  · rw [if_neg hfull]
    by_cases hgate : sham_can_send_data c2 chunk = true
    · rw [if_pos hgate]
      have hseqlt : c2.send_seq < M32 := by rw [hTseq]; omega
      set pkt := sham_create_packet_with_conn c2 c2.send_seq c2.recv_seq 0
        (some (data.drop bs)) chunk with hpkt
      have hpdl : pkt.data_len = chunk := by
        rw [hpkt]
        simp only [sham_create_packet_with_conn, sham_create_packet]
        rw [if_pos ⟨hch1, hch2⟩]
      have hpseq : pkt.header.seq_num = c2.send_seq := by
        rw [hpkt]
        simp only [sham_create_packet_with_conn, sham_create_packet]
        rw [if_pos ⟨hch1, hch2⟩]
        exact Nat.mod_eq_of_lt hseqlt
      have hfull' : c2.window_count < SHAM_WINDOW_SIZE := by omega
      have hpush := SendInv_push (sham_update_flow_control c2 chunk) pkt now
        hT hfull' hpseq
        (by show c2.send_seq + pkt.data_len < M32; rw [hTseq, hpdl]; omega)
      rw [hpdl] at hpush
      refine ⟨hpush, ?_, ?_⟩
      · show (c2.send_seq + chunk) % M32 + (len - (bs + chunk)) < M32
        rw [Nat.mod_eq_of_lt (by rw [hTseq]; omega), hTseq]
        omega
      · show bs + chunk ≤ len
        omega
    · rw [if_neg hgate]
      refine ⟨hT, ?_, ?_⟩
      · show c2.send_seq + (len - bs) < M32
        rw [hTseq]; exact hwrap
      · show bs ≤ len
        omega

/-- The chunk-emission phase: when it returns, bytes_sent equals len and
    the window invariant still holds. -/
theorem sendPhase_spec (env : Nat → List sham_packet × Int) :
    ∀ (fuel iter : Nat) (c : sham_connection) (data : List Nat)
      (len bs : Nat),
    SendInv c → c.send_seq + (len - bs) < M32 → bs ≤ len →
    ∀ r, sendPhase env fuel iter c data len bs = some r →
      SendInv r.2.1 ∧ r.2.2 = len := by
  intro fuel
  induction fuel with
  | zero =>
    intro iter c data len bs hinv hwrap hle r hr
    unfold sendPhase at hr
    by_cases h : bs < len
    · rw [if_pos h] at hr
      exact absurd hr (by simp)
    · rw [if_neg h] at hr
      have hr2 : r = (iter, c, bs) := by
        simp only [Option.some.injEq] at hr
        exact hr.symm
      rw [hr2]
      exact ⟨hinv, by show bs = len; omega⟩
  | succ n ih =>
    intro iter c data len bs hinv hwrap hle r hr
    unfold sendPhase at hr
    by_cases h : bs < len
    · rw [if_pos h] at hr
      dsimp only at hr
      obtain ⟨hi1, hi2, hi3⟩ :=
        sham_send_iter_inv c data len bs (env iter).1 (env iter).2 hinv hwrap h
      exact ih (iter + 1) _ data len _ hi1 hi2 hi3 r hr
    · rw [if_neg h] at hr
      have hr2 : r = (iter, c, bs) := by
        simp only [Option.some.injEq] at hr
        exact hr.symm
      rw [hr2]
      exact ⟨hinv, by show bs = len; omega⟩

/-- The drain phase: when it returns, the window is empty and the window
    invariant still holds. -/
theorem drainLoop_spec (env : Nat → List sham_packet × Int) :
    ∀ (fuel iter : Nat) (c : sham_connection), SendInv c →
    ∀ c', drainLoop env fuel iter c = some c' →
      SendInv c' ∧ c'.window_count = 0 := by
  intro fuel
  induction fuel with
  | zero => intro iter c hinv c' h; simp [drainLoop] at h
  | succ n ih =>
    intro iter c hinv c' h
    unfold drainLoop at h
    split_ifs at h with h0
    · obtain rfl : c = c' := by simpa using h
      exact ⟨hinv, h0⟩
    · dsimp only at h
      have hc1 : SendInv (match (env iter).1.head? with
          | some p =>
            if p.header.flags.land SHAM_ACK ≠ 0 then sham_process_ack c p
            else c
          | none => c) := by
        cases (env iter).1.head? with
        | none => exact hinv
        | some p =>
          dsimp only
          split_ifs with hf
          · exact (process_ack_spec c p hinv).1
          · exact hinv
      exact ih (iter + 1) _ (handle_timeout_inv _ _ hc1).1 c' h

/-- C2: for every established connection satisfying the sender-window
    well-formedness invariant (and the spec's no-wraparound assumption),
    whenever sham_send returns without error it returns exactly len, and
    at that moment window_count = 0 and send_base = send_seq: all
    emitted segments have been cumulatively acknowledged. -/
theorem sham_send_success_drains_window (c : sham_connection)
    (data : List Nat) (len : Nat) (env : Nat → List sham_packet × Int)
    (fuel : Nat) (hinv : SendInv c) (hst : c.state = SHAM_ESTABLISHED)
    (hwrap : c.send_seq + len < M32)
    (hsome : (shamSend c data len env fuel).isSome = true) :
    ((shamSend c data len env fuel).get hsome).2 = (len : Int) ∧
    ((shamSend c data len env fuel).get hsome).1.window_count = 0 ∧
    ((shamSend c data len env fuel).get hsome).1.send_base =
      ((shamSend c data len env fuel).get hsome).1.send_seq := by
  obtain ⟨r, hr⟩ := Option.isSome_iff_exists.mp hsome
  have hget : (shamSend c data len env fuel).get hsome = r := by
    simp [hr]
  rw [hget]
  unfold shamSend at hr
  rw [if_pos hst] at hr
  cases hsp : sendPhase env fuel 0 c data len 0 with
  | none => rw [hsp] at hr; simp at hr
  | some t =>
    obtain ⟨it, tc, tbs⟩ := t
    rw [hsp] at hr
    obtain ⟨hps1, hps2⟩ := sendPhase_spec env fuel 0 c data len 0 hinv
      (by simpa using hwrap) (by omega) (it, tc, tbs) hsp
    dsimp only at hr hps1 hps2
    cases hdl : drainLoop env fuel it tc with
    | none => rw [hdl] at hr; simp at hr
    | some c' =>
      rw [hdl] at hr
      obtain ⟨hd1, hd2⟩ := drainLoop_spec env fuel it tc hps1 c' hdl
      obtain rfl : (c', (tbs : Int)) = r := by simpa using hr
      refine ⟨?_, hd2, ?_⟩
      · show (tbs : Int) = (len : Int)
        exact_mod_cast congrArg Nat.cast hps2
      · exact hd1.2.2.2.1 hd2

/-- C2 witness: a concrete 5-byte send over a fresh established
    connection, acknowledged by the peer in the drain phase. -/
theorem sham_send_success_drains_window_w :
    ((shamSend sendC0 [1, 2, 3, 4, 5] 5 c2env 5).get (by decide)).2 =
      (5 : Int) ∧
    ((shamSend sendC0 [1, 2, 3, 4, 5] 5 c2env 5).get (by decide)).1.window_count = 0 ∧
    ((shamSend sendC0 [1, 2, 3, 4, 5] 5 c2env 5).get (by decide)).1.send_base =
      ((shamSend sendC0 [1, 2, 3, 4, 5] 5 c2env 5).get (by decide)).1.send_seq :=
  sham_send_success_drains_window sendC0 [1, 2, 3, 4, 5] 5 c2env 5
    (by decide) rfl (by decide) (by decide)

/-- A cumulative-ACK walk that cannot cover even the oldest entry pops
    nothing and returns the connection unchanged. -/
theorem ackLoop_stale (c1 : sham_connection) (ack : Nat) (fuel : Nat)
    (hf : fuel = c1.window_count)
    (hfront : c1.window_count ≠ 0 →
      ack < ((aGet c1.send_window c1.window_start zeroWindowEntry).packet.header.seq_num +
        (aGet c1.send_window c1.window_start zeroWindowEntry).packet.data_len) % M32) :
    ackLoop fuel c1 ack = c1 := by
  cases fuel with
  | zero => rfl
  | succ n =>
    unfold ackLoop
    rw [if_neg (by omega)]
    dsimp only
    rw [if_neg (by have := hfront (by omega); omega)]

/-- C8 amended: under the sender-window invariant, an ACK whose
    cumulative value is ≤ last_byte_acked (and behind the oldest
    unacknowledged segment's end) leaves every field of the connection
    unchanged except peer_window_size, which is overwritten with the
    stale ACK's advertised window; and no ACK whatsoever decreases
    send_base. -/
theorem ack_monotone_and_stale_frame (c : sham_connection) (a : sham_packet)
    (hinv : SendInv c)
    (hstale : a.header.ack_num ≤ c.last_byte_acked)
    (hfront : c.window_count ≠ 0 →
      a.header.ack_num < entryEnd (winEntry c 0)) :
    sham_process_ack c a =
      { c with peer_window_size := a.header.window_size } ∧
    ∀ b : sham_packet, c.send_base ≤ (sham_process_ack c b).send_base := by
  constructor
  · unfold sham_process_ack
    dsimp only
    rw [if_neg (by omega)]
    refine ackLoop_stale _ _ _ rfl ?_
    intro h
    have hc0 : c.window_count ≠ 0 := h
    have hws0 : winIdx c 0 = c.window_start := by
      simp only [winIdx, Nat.add_zero]
      exact Nat.mod_eq_of_lt hinv.2.1
    have he0 : winEntry c 0 =
        aGet c.send_window c.window_start zeroWindowEntry := by
      rw [winEntry, hws0]
    have hlt : entryEnd (winEntry c 0) < M32 :=
      hinv.2.2.2.2.2.2.2 0 (by omega)
    have hmod :
        ((aGet c.send_window c.window_start zeroWindowEntry).packet.header.seq_num +
         (aGet c.send_window c.window_start zeroWindowEntry).packet.data_len) %
          M32 = entryEnd (winEntry c 0) := by
      rw [he0] at hlt ⊢
      exact Nat.mod_eq_of_lt hlt
    show a.header.ack_num <
      ((aGet c.send_window c.window_start zeroWindowEntry).packet.header.seq_num +
       (aGet c.send_window c.window_start zeroWindowEntry).packet.data_len) % M32
    rw [hmod]
    exact hfront hc0
  · intro b
    exact (process_ack_spec c b hinv).2.1

/-- C8 amended, witness: the stale ACK `c8ack` against `c8conn` leaves
    everything but peer_window_size unchanged; send_base never drops. -/
theorem ack_monotone_and_stale_frame_w :
    sham_process_ack c8conn c8ack =
      { c8conn with peer_window_size := c8ack.header.window_size } ∧
    ∀ b : sham_packet, c8conn.send_base ≤
      (sham_process_ack c8conn b).send_base :=
  ack_monotone_and_stale_frame c8conn c8ack (by decide) (by decide)
    (fun h => absurd rfl h)

/-- C4 amended: inside one sham_send iteration, a data segment is
    emitted only when the packet-count gate and the flow-control gate
    both pass for its chunk size (chunk ≤ peer_window − in-flight with
    the in-flight difference clamped at zero), and immediately after the
    emission the bytes in flight do not exceed peer_window_size.  (The
    bound can still be broken at a later observation point by an ACK
    that shrinks peer_window_size below the current in-flight count —
    see the counterexample.) -/
theorem emission_gate_bounds_inflight (c : sham_connection)
    (data : List Nat) (len bytes_sent : Nat) (ps : List sham_packet)
    (now : Int) (hbs : bytes_sent < len)
    (hs : (sham_handle_timeout (drainAcks c ps) now).1.last_byte_sent < M32)
    (ha : (sham_handle_timeout (drainAcks c ps) now).1.last_byte_acked < M32)
    (hemit : (sham_send_iter c data len bytes_sent ps now).2.2.isSome = true) :
    sham_can_send_data (sham_handle_timeout (drainAcks c ps) now).1
      (min SHAM_MAX_DATA_SIZE (len - bytes_sent)) = true ∧
    (sham_handle_timeout (drainAcks c ps) now).1.window_count <
      SHAM_WINDOW_SIZE ∧
    (sham_send_iter c data len bytes_sent ps now).2.2.map
      (fun q => q.data_len) =
      some (min SHAM_MAX_DATA_SIZE (len - bytes_sent)) ∧
    bytesInFlight (sham_send_iter c data len bytes_sent ps now).1 ≤
      (sham_send_iter c data len bytes_sent ps now).1.peer_window_size := by
  unfold sham_send_iter at hemit ⊢
  dsimp only at hemit ⊢
  set c2 := (sham_handle_timeout (drainAcks c ps) now).1 with hc2
  set chunk := if SHAM_MAX_DATA_SIZE < len - bytes_sent then
    SHAM_MAX_DATA_SIZE else len - bytes_sent with hchunk
  have hm : SHAM_MAX_DATA_SIZE = 1024 := rfl
  have hchmin : chunk = min SHAM_MAX_DATA_SIZE (len - bytes_sent) := by
    rw [hchunk]; split_ifs with h <;> omega
  have hch1 : 0 < chunk := by
    rw [hchunk]; split_ifs with h <;> omega
  have hch2 : chunk ≤ SHAM_MAX_DATA_SIZE := by
    rw [hchunk]; split_ifs with h <;> omega
  by_cases hfull : SHAM_WINDOW_SIZE ≤ c2.window_count
  · rw [if_pos hfull] at hemit
    simp at hemit
  · rw [if_neg hfull] at hemit ⊢
    by_cases hgate : sham_can_send_data c2 chunk = true
    · rw [if_pos hgate] at hemit ⊢
      have hpdl : (sham_create_packet_with_conn c2 c2.send_seq c2.recv_seq 0
          (some (data.drop bytes_sent)) chunk).data_len = chunk := by
        simp only [sham_create_packet_with_conn, sham_create_packet]
        rw [if_pos ⟨hch1, hch2⟩]
      refine ⟨by rw [← hchmin]; exact hgate, by omega, ?_, ?_⟩
      · show some ((sham_create_packet_with_conn c2 c2.send_seq c2.recv_seq 0
          (some (data.drop bytes_sent)) chunk).data_len) = _
        rw [hpdl, hchmin]
      · show bytesInFlight (sham_update_flow_control c2 chunk) ≤
          c2.peer_window_size
        exact canSend_update_bound c2 chunk hch1 hs ha hgate
    · rw [if_neg hgate] at hemit
      simp at hemit

/-- C4 amended, witness: the first emission of a 1025-byte send. -/
theorem emission_gate_bounds_inflight_w :
    sham_can_send_data
      (sham_handle_timeout (drainAcks sendC0 []) 0).1
      (min SHAM_MAX_DATA_SIZE (1025 - 0)) = true ∧
    (sham_handle_timeout (drainAcks sendC0 []) 0).1.window_count <
      SHAM_WINDOW_SIZE ∧
    (sham_send_iter sendC0 (List.replicate 1025 3) 1025 0 [] 0).2.2.map
      (fun q => q.data_len) = some (min SHAM_MAX_DATA_SIZE (1025 - 0)) ∧
    bytesInFlight (sham_send_iter sendC0 (List.replicate 1025 3) 1025 0 [] 0).1 ≤
      (sham_send_iter sendC0 (List.replicate 1025 3) 1025 0 [] 0).1.peer_window_size :=
  emission_gate_bounds_inflight sendC0 (List.replicate 1025 3) 1025 0 [] 0
    (by decide) (by decide) (by decide) (by decide)

/-- C1 (evaluation at the failing input): at `c1stuck` — one unacked
    segment, already at MAX_RETRIES, timed out again — the timeout scan
    sham_handle_timeout reports -1 (unrecoverable), yet sham_send, which
    discards that return value at both of its call sites, never stops:
    its drain loop spins on the unchanged state and never returns, for
    every fuel bound, instead of returning an error to the caller. -/
theorem sham_send_never_surfaces_max_retries :
    (sham_handle_timeout c1stuck 1000000).2 = -1 ∧
    ∀ fuel, shamSend c1stuck [] 0 c1env fuel = none := by
  constructor
  · decide
  · have hfix : (sham_handle_timeout c1stuck 1000000).1 = c1stuck := by decide
    have hdrain : ∀ fuel iter, drainLoop c1env fuel iter c1stuck = none := by
      intro fuel
      induction fuel with
      | zero => intro iter; rfl
      | succ n ih =>
        intro iter
        show drainLoop c1env (n + 1) iter c1stuck = none
        unfold drainLoop
        rw [if_neg (by decide)]
        simpa [c1env, hfix] using ih (iter + 1)
    intro fuel
    unfold shamSend
    rw [if_pos (by decide)]
    cases fuel with
    | zero =>
      show (match some (0, c1stuck, 0) with
        | none => none
        | some (iter, c, bytes_sent) =>
          match drainLoop c1env 0 iter c with
          | none => none
          | some c' => some (c', (bytes_sent : Int))) = none
      simp [hdrain 0 0]
    | succ n =>
      have hsp : sendPhase c1env (n + 1) 0 c1stuck [] 0 0 =
          some (0, c1stuck, 0) := by
        unfold sendPhase
        rw [if_neg (by decide)]
      rw [hsp]
      simp [hdrain (n + 1) 0]

/-! ## Out-of-order buffer lemmas -/

theorem oooFindGo_none_spec (c : sham_connection) :
    ∀ (fuel i : Nat), oooFindGo c fuel i = none →
      ∀ j, i ≤ j → j < i + fuel →
        ¬((aGet c.ooo_buffer j zeroOooEntry).valid = true ∧
          (aGet c.ooo_buffer j zeroOooEntry).packet.header.seq_num =
            c.recv_seq) := by
  intro fuel
  induction fuel with
  | zero => intro i _ j h1 h2; omega
  | succ n ih =>
    intro i h j h1 h2
    unfold oooFindGo at h
    dsimp only at h
    split_ifs at h with hc
    by_cases hji : j = i
    · subst hji; exact hc
    · exact ih (i + 1) h j (by omega) (by omega)

theorem oooFindGo_some_spec (c : sham_connection) :
    ∀ (fuel i j : Nat), oooFindGo c fuel i = some j →
      i ≤ j ∧ j < i + fuel ∧
      (aGet c.ooo_buffer j zeroOooEntry).valid = true ∧
      (aGet c.ooo_buffer j zeroOooEntry).packet.header.seq_num =
        c.recv_seq := by
  intro fuel
  induction fuel with
  | zero => intro i j h; exact absurd h (by simp [oooFindGo])
  | succ n ih =>
    intro i j h
    unfold oooFindGo at h
    dsimp only at h
    split_ifs at h with hc
    · have hji : i = j := by simpa using h
      subst hji
      exact ⟨le_refl _, by omega, hc.1, hc.2⟩
    · obtain ⟨g1, g2, g3, g4⟩ := ih (i + 1) j h
      exact ⟨by omega, by omega, g3, g4⟩

theorem oooFind_none_of_invalid (c : sham_connection)
    (h : ∀ j, j < SHAM_WINDOW_SIZE → (oooEntryAt c j).valid = false) :
    oooFind c = none := by
  cases heq : oooFind c with
  | none => rfl
  | some j =>
    obtain ⟨g1, g2, g3, g4⟩ := oooFindGo_some_spec c SHAM_WINDOW_SIZE 0 j heq
    have := h j (by omega)
    rw [oooEntryAt] at this
    rw [this] at g3
    exact absurd g3 (by simp)

theorem deliverGo_of_find_none (c : sham_connection) (buffer : List Nat)
    (pos size : Nat) (h : oooFind c = none) :
    ∀ fuel, deliverGo fuel c buffer pos size = (c, buffer, pos) := by
  intro fuel
  cases fuel with
  | zero => rfl
  | succ n =>
    unfold deliverGo
    rw [h]

theorem oooInv_urb (x : sham_connection) (n : Int) :
    oooInv (sham_update_recv_buffer x n) ↔ oooInv x := by
  unfold oooInv oooEntryAt
  rw [(urb_frame x n).1, (urb_frame x n).2.1]

theorem validCount_aSet_invalid (l : List sham_ooo_entry) (i : Nat)
    (e : sham_ooo_entry) (hv : (aGet l i zeroOooEntry).valid = true)
    (hi : i < l.length) (he : e.valid = false) :
    (aSet l i e).countP (fun x => x.valid) + 1 =
      l.countP (fun x => x.valid) := by
  have hcp := countP_aSet l (fun x => x.valid) i e zeroOooEntry hi
  dsimp only at hcp
  rw [hv, he] at hcp
  simpa using hcp

/-- The delivery loop of sham_deliver_ooo_packets, on a sound buffer
    with enough fuel to reach the final empty scan, re-establishes the
    strict invariant: every remaining valid entry is strictly ahead of
    the final cursor. -/
theorem deliverGo_inv : ∀ (fuel : Nat) (c : sham_connection)
    (buffer : List Nat) (pos size : Nat),
    DeliverOk c → validCount c < fuel →
    DeliverOk (deliverGo fuel c buffer pos size).1 ∧
    oooInv (deliverGo fuel c buffer pos size).1 := by
  intro fuel
  induction fuel with
  | zero => intro c buffer pos size hok hvc; omega
  | succ n ih =>
    intro c buffer pos size hok hvc
    unfold deliverGo
    cases hfind : oooFind c with
    | none =>
      dsimp only
      refine ⟨hok, ?_⟩
      intro i hi hv
      have hge := (hok.2.1 i hi hv).2.2
      simp only [oooEntryAt] at hge hv ⊢
      have hne := oooFindGo_none_spec c SHAM_WINDOW_SIZE 0 hfind i
        (by omega) (by omega)
      have hneq : (aGet c.ooo_buffer i zeroOooEntry).packet.header.seq_num ≠
          c.recv_seq := fun he => hne ⟨hv, he⟩
      omega
    | some i =>
      obtain ⟨g1, g2, g3, g4⟩ := oooFindGo_some_spec c SHAM_WINDOW_SIZE 0 i
        hfind
      have hi10 : i < SHAM_WINDOW_SIZE := by
        simpa using g2
      dsimp only
      obtain ⟨hLen, hone, hpair⟩ := hok
      simp only [oooEntryAt] at hone hpair
      obtain ⟨he1, he2, he3⟩ := hone i hi10 g3
      have hrecv : c.recv_seq +
          (aGet c.ooo_buffer i zeroOooEntry).packet.data_len < M32 := by
        rw [← g4]
        exact he2
      set e := aGet c.ooo_buffer i zeroOooEntry with hedef
      set c' : sham_connection :=
        { c with
          recv_seq := (c.recv_seq + e.packet.data_len) % M32
          ooo_buffer := aSet c.ooo_buffer i { e with valid := false } }
        with hc'
      have hrseq : c'.recv_seq = c.recv_seq + e.packet.data_len := by
        show (c.recv_seq + e.packet.data_len) % M32 = _
        exact Nat.mod_eq_of_lt hrecv
      have hentry : ∀ j, j ≠ i →
          oooEntryAt c' j = aGet c.ooo_buffer j zeroOooEntry := by
        intro j hji
        show aGet (aSet c.ooo_buffer i _) j zeroOooEntry = _
        exact aGet_aSet_ne _ _ _ _ _ (fun h => hji h.symm)
      have hentry_i : oooEntryAt c' i = { e with valid := false } := by
        show aGet (aSet c.ooo_buffer i _) i zeroOooEntry = _
        exact aGet_aSet_self _ _ _ _ (by omega)
      have hok' : DeliverOk c' := by
        refine ⟨?_, ?_, ?_⟩
        · show (aSet c.ooo_buffer i _).length = SHAM_WINDOW_SIZE
          rw [aSet_length]; exact hLen
        · intro j hj hv
          by_cases hji : j = i
          · subst hji
            rw [hentry_i] at hv
            exact absurd hv (by simp)
          · rw [hentry j hji] at hv
            rw [hentry j hji]
            obtain ⟨q1, q2, q3⟩ := hone j hj hv
            refine ⟨q1, q2, ?_⟩
            rw [hrseq]
            have hdisj := hpair i hi10 j hj (fun h => hji h.symm) g3 hv
            unfold segsDisjoint at hdisj
            have hq : (aGet c.ooo_buffer i zeroOooEntry).packet.header.seq_num =
                e.packet.header.seq_num := by rw [← hedef]
            have hr : (aGet c.ooo_buffer i zeroOooEntry).packet.data_len =
                e.packet.data_len := by rw [← hedef]
            rcases hdisj with hd1 | hd2
            · omega
            · omega
        · intro a ha b hb hab hva hvb
          have hai : a ≠ i := by
            intro h
            subst h
            rw [hentry_i] at hva
            exact absurd hva (by simp)
          have hbi : b ≠ i := by
            intro h
            subst h
            rw [hentry_i] at hvb
            exact absurd hvb (by simp)
          rw [hentry a hai] at hva
          rw [hentry b hbi] at hvb
          rw [hentry a hai, hentry b hbi]
          exact hpair a ha b hb hab hva hvb
      have hvc' : validCount c' < n := by
        have hdec := validCount_aSet_invalid c.ooo_buffer i
          { e with valid := false } g3 (by omega) rfl
        have hvcc : validCount c' + 1 = validCount c := hdec
        omega
      exact ih c' _ _ size hok' hvc'

/-- Buffering a segment strictly ahead of the cursor preserves the
    strict invariant (the new entry is ahead; the rest are untouched). -/
theorem bufferLoop_oooInv : ∀ (fuel i : Nat) (c : sham_connection)
    (p : sham_packet), oooInv c → c.recv_seq < p.header.seq_num →
    oooInv (bufferLoop fuel i c p) := by
  intro fuel
  induction fuel with
  | zero => intro i c p hinv _; exact hinv
  | succ n ih =>
    intro i c p hinv hp
    unfold bufferLoop
    split_ifs with h
    · exact ih (i + 1) c p hinv hp
    · intro j hj hv
      show _ < (oooEntryAt _ j).packet.header.seq_num
      rw [oooEntryAt] at hv ⊢
      show c.recv_seq < _
      rw [aGet_aSet] at hv ⊢
      split_ifs at hv ⊢ with hij
      · exact hp
      · exact hinv j hj hv

/-- C3 amended: the receiver invariant `seq > recv_seq` for every valid
    ooo_buffer entry is preserved by each arrival, provided the valid
    buffered segments and the arriving segment occupy pairwise-disjoint
    non-empty (non-wrapping) sequence ranges — i.e. no duplicate copies
    are in play.  With a duplicated segment the invariant fails (see the
    counterexample). -/
theorem ooo_invariant_of_disjoint (c : sham_connection) (p : sham_packet)
    (buffer : List Nat) (pos len : Nat)
    (hinv : oooInv c) (hsound : OooSound c p) :
    oooInv (sham_recv_step c p buffer pos len).conn := by
  obtain ⟨hL, hone, hpair, hpd, hpb⟩ := hsound
  have hconn : (sham_recv_step c p buffer pos len).conn =
      (sham_recv_core c p buffer pos len).1 := by
    unfold sham_recv_step
    rw [if_pos hpd]
  rw [hconn]
  unfold sham_recv_core
  by_cases hseq : p.header.seq_num = c.recv_seq
  · rw [if_pos hseq]
    dsimp only
    rw [oooInv_urb]
    have hrlt : c.recv_seq + p.data_len < M32 := by
      rw [← hseq]; exact hpb
    have hok2 : DeliverOk (sham_update_recv_buffer
        { c with recv_seq := (c.recv_seq + p.data_len) % M32 }
        (p.data_len : Int)) := by
      set conn1 : sham_connection :=
        { c with recv_seq := (c.recv_seq + p.data_len) % M32 } with hc1
      have hfr := urb_frame conn1 (p.data_len : Int)
      refine ⟨?_, ?_, ?_⟩
      · rw [hfr.2.1]
        exact hL
      · intro j hj hv
        have hj2 : oooEntryAt (sham_update_recv_buffer conn1 (p.data_len : Int)) j =
            oooEntryAt c j := by
          unfold oooEntryAt
          rw [hfr.2.1]
        rw [hj2] at hv ⊢
        obtain ⟨q1, q2, q3⟩ := hone j hj hv
        refine ⟨q1, q2, ?_⟩
        rw [hfr.1]
        show (c.recv_seq + p.data_len) % M32 ≤ _
        rw [Nat.mod_eq_of_lt hrlt]
        have hlt := hinv j hj hv
        rcases q3 with hd1 | hd2
        · omega
        · omega
      · intro a ha b hb hab hva hvb
        have hj2 : ∀ j, oooEntryAt (sham_update_recv_buffer conn1 (p.data_len : Int)) j =
            oooEntryAt c j := by
          intro j
          unfold oooEntryAt
          rw [hfr.2.1]
        rw [hj2 a] at hva ⊢
        rw [hj2 b] at hvb ⊢
        exact hpair a ha b hb hab hva hvb
    have hvc : validCount (sham_update_recv_buffer
        { c with recv_seq := (c.recv_seq + p.data_len) % M32 }
        (p.data_len : Int)) < SHAM_WINDOW_SIZE + 1 := by
      have hcl := countP_le_len (sham_update_recv_buffer
        { c with recv_seq := (c.recv_seq + p.data_len) % M32 }
        (p.data_len : Int)).ooo_buffer (fun e => e.valid)
      have hlen : (sham_update_recv_buffer
          { c with recv_seq := (c.recv_seq + p.data_len) % M32 }
          (p.data_len : Int)).ooo_buffer.length = SHAM_WINDOW_SIZE := by
        rw [(urb_frame _ _).2.1]
        exact hL
      simp only [validCount]
      omega
    exact (deliverGo_inv (SHAM_WINDOW_SIZE + 1) _ _ _ len hok2 hvc).2
  · rw [if_neg hseq]
    by_cases hlt : c.recv_seq < p.header.seq_num
    · rw [if_pos hlt]
      exact bufferLoop_oooInv SHAM_WINDOW_SIZE 0 c p hinv hlt
    · rw [if_neg hlt]
      exact hinv

/-- C3 amended, witness: an empty buffer and an out-of-order full-MSS
    segment one MSS ahead of the cursor. -/
theorem ooo_invariant_of_disjoint_w :
    oooInv (sham_recv_step recvR0 (mssPacket 1) [] 0 2048).conn :=
  ooo_invariant_of_disjoint recvR0 (mssPacket 1) [] 0 2048 (by decide)
    (by decide)

/-! ## C9 — truncated in-order copy still advances recv_seq fully -/

/-- C9: when an in-order segment carries more payload than the remaining
    application-buffer capacity, only the fitting prefix is copied into
    the buffer (filling it completely), yet recv_seq advances by the
    segment's full data_len: the excess bytes are lost.  (Stated with an
    empty out-of-order buffer so the delivery scan is a no-op.) -/
theorem recv_truncation_advances_full_length (c : sham_connection)
    (p : sham_packet) (buffer : List Nat) (pos len : Nat)
    (hseq : p.header.seq_num = c.recv_seq)
    (htr : len - pos < p.data_len)
    (hooo : ∀ j, j < SHAM_WINDOW_SIZE → (oooEntryAt c j).valid = false) :
    (sham_recv_step c p buffer pos len).buffer =
      buffer ++ p.data.take (len - pos) ∧
    (sham_recv_step c p buffer pos len).buffer_pos = pos + (len - pos) ∧
    (sham_recv_step c p buffer pos len).conn.recv_seq =
      (c.recv_seq + p.data_len) % M32 := by
  have hd : 0 < p.data_len := by omega
  have hcore : sham_recv_core c p buffer pos len =
      (sham_update_recv_buffer
        (sham_update_recv_buffer
          { c with recv_seq := (c.recv_seq + p.data_len) % M32 }
          (p.data_len : Int))
        (-((len - pos : Nat) : Int)),
       buffer ++ p.data.take (len - pos), pos + (len - pos)) := by
    unfold sham_recv_core
    rw [if_pos hseq]
    dsimp only
    rw [if_pos htr]
    have hfr := urb_frame
      { c with recv_seq := (c.recv_seq + p.data_len) % M32 }
      (p.data_len : Int)
    have hooo2 : ∀ j, j < SHAM_WINDOW_SIZE →
        (oooEntryAt (sham_update_recv_buffer
          { c with recv_seq := (c.recv_seq + p.data_len) % M32 }
          (p.data_len : Int)) j).valid = false := by
      intro j hj
      show (aGet (sham_update_recv_buffer _ _).ooo_buffer j zeroOooEntry).valid = false
      rw [hfr.2.1]
      exact hooo j hj
    have hnone := oooFind_none_of_invalid _ hooo2
    unfold sham_deliver_ooo_packets
    rw [deliverGo_of_find_none _ _ _ _ hnone]
  unfold sham_recv_step
  rw [if_pos hd, hcore]
  refine ⟨rfl, rfl, ?_⟩
  show (sham_update_recv_buffer (sham_update_recv_buffer _ _) _).recv_seq = _
  rw [(urb_frame _ _).1, (urb_frame _ _).1]

/-- C9 witness: a full-MSS in-order segment against a 1-byte application
    buffer: one byte is copied, recv_seq advances by 1024. -/
theorem recv_truncation_advances_full_length_w :
    (sham_recv_step recvR0 (mssPacket 0) [] 0 1).buffer =
      [] ++ (mssPacket 0).data.take (1 - 0) ∧
    (sham_recv_step recvR0 (mssPacket 0) [] 0 1).buffer_pos = 0 + (1 - 0) ∧
    (sham_recv_step recvR0 (mssPacket 0) [] 0 1).conn.recv_seq =
      (recvR0.recv_seq + (mssPacket 0).data_len) % M32 :=
  recv_truncation_advances_full_length recvR0 (mssPacket 0) [] 0 1
    (by decide) (by decide) (by decide)

/-! ## C5 amended — the data-path ACK window computation -/

/-- Full characterization of sham_calculate_advertised_window on its
    uint16 fields (both below 2^16, as the C types guarantee): the
    result is always at least MSS; while the accounting is in range
    (used ≤ size) it equals max(size − used, MSS); once charging has
    pushed used past size the uint16 subtraction wraps and it equals
    max(size + 2^16 − used, MSS). -/
theorem calc_adv_spec (c : sham_connection)
    (hsize : c.recv_buffer_size < M16)
    (hused : c.recv_buffer_used < M16) :
    SHAM_MAX_DATA_SIZE ≤ sham_calculate_advertised_window c ∧
    sham_calculate_advertised_window c < M16 ∧
    (c.recv_buffer_used ≤ c.recv_buffer_size →
      sham_calculate_advertised_window c =
        max (c.recv_buffer_size - c.recv_buffer_used) SHAM_MAX_DATA_SIZE) ∧
    (c.recv_buffer_size < c.recv_buffer_used →
      sham_calculate_advertised_window c =
        max (c.recv_buffer_size + M16 - c.recv_buffer_used)
          SHAM_MAX_DATA_SIZE) := by
  unfold sham_calculate_advertised_window
  dsimp only
  have h1 : c.recv_buffer_size % M16 = c.recv_buffer_size :=
    Nat.mod_eq_of_lt hsize
  have h2 : c.recv_buffer_used % M16 = c.recv_buffer_used :=
    Nat.mod_eq_of_lt hused
  rw [h1, h2]
  have hm : SHAM_MAX_DATA_SIZE = 1024 := rfl
  have hM : M16 = 65536 := rfl
  by_cases hle : c.recv_buffer_used ≤ c.recv_buffer_size
  · have h3 : (c.recv_buffer_size + M16 - c.recv_buffer_used) % M16 =
        c.recv_buffer_size - c.recv_buffer_used := by
      have h4 : c.recv_buffer_size + M16 - c.recv_buffer_used =
          (c.recv_buffer_size - c.recv_buffer_used) + M16 := by omega
      rw [h4, Nat.add_mod_right]
      exact Nat.mod_eq_of_lt (by omega)
    rw [h3]
    refine ⟨?_, ?_, fun _ => ?_, fun hgt => absurd hgt (by omega)⟩
    · split_ifs with h <;> omega
    · split_ifs with h <;> omega
    · split_ifs with h <;> omega
  · have h3 : (c.recv_buffer_size + M16 - c.recv_buffer_used) % M16 =
        c.recv_buffer_size + M16 - c.recv_buffer_used :=
      Nat.mod_eq_of_lt (by omega)
    rw [h3]
    refine ⟨?_, ?_, fun hle2 => absurd hle2 hle, fun _ => ?_⟩
    · split_ifs with h <;> omega
    · split_ifs with h <;> omega
    · split_ifs with h <;> omega

/-- C5 amended: every ACK emitted on the sham_recv data path is built
    with the connection-aware constructor, so its window_size is the
    advertised-window computation on the post-placement connection and
    is always at least MSS = 1024; while the receive-buffer accounting
    is in range (recv_buffer_used ≤ recv_buffer_size) it equals the
    claimed max(recv_buffer_size − recv_buffer_used, MSS), but once
    charging has pushed recv_buffer_used past recv_buffer_size (a
    reachable situation, see the C7 counterexample) the uint16
    subtraction wraps and the ACK carries
    max(recv_buffer_size + 2^16 − recv_buffer_used, MSS) instead; the
    close-handshake packets carry the fixed default 16384 (see the C5
    counterexample). -/
theorem recv_ack_window_formula (c : sham_connection) (p : sham_packet)
    (buffer : List Nat) (pos len : Nat) (hd : 0 < p.data_len)
    (hsize : (sham_recv_core c p buffer pos len).1.recv_buffer_size < M16)
    (hused : (sham_recv_core c p buffer pos len).1.recv_buffer_used < M16) :
    ∃ a, (sham_recv_step c p buffer pos len).ack = some a ∧
      SHAM_MAX_DATA_SIZE ≤ a.header.window_size ∧
      ((sham_recv_core c p buffer pos len).1.recv_buffer_used ≤
          (sham_recv_core c p buffer pos len).1.recv_buffer_size →
        a.header.window_size =
          max ((sham_recv_core c p buffer pos len).1.recv_buffer_size -
            (sham_recv_core c p buffer pos len).1.recv_buffer_used)
            SHAM_MAX_DATA_SIZE) ∧
      ((sham_recv_core c p buffer pos len).1.recv_buffer_size <
          (sham_recv_core c p buffer pos len).1.recv_buffer_used →
        a.header.window_size =
          max ((sham_recv_core c p buffer pos len).1.recv_buffer_size + M16 -
            (sham_recv_core c p buffer pos len).1.recv_buffer_used)
            SHAM_MAX_DATA_SIZE) := by
  obtain ⟨hc1, hc2, hc3, hc4⟩ :=
    calc_adv_spec (sham_recv_core c p buffer pos len).1 hsize hused
  have hack : (sham_recv_step c p buffer pos len).ack =
      some (sham_create_packet_with_conn (sham_recv_core c p buffer pos len).1
        (sham_recv_core c p buffer pos len).1.send_seq
        (sham_recv_core c p buffer pos len).1.recv_seq SHAM_ACK none 0) := by
    unfold sham_recv_step
    rw [if_pos hd]
  have hwin : (sham_create_packet_with_conn (sham_recv_core c p buffer pos len).1
      (sham_recv_core c p buffer pos len).1.send_seq
      (sham_recv_core c p buffer pos len).1.recv_seq SHAM_ACK
      none 0).header.window_size =
      sham_calculate_advertised_window (sham_recv_core c p buffer pos len).1 := by
    show sham_calculate_advertised_window
      (sham_recv_core c p buffer pos len).1 % M16 = _
    exact Nat.mod_eq_of_lt hc2
  refine ⟨_, hack, ?_, fun h => ?_, fun h => ?_⟩
  · rw [hwin]; exact hc1
  · rw [hwin]; exact hc3 h
  · rw [hwin]; exact hc4 h

set_option maxRecDepth 40000 in
/-- C5 amended, witness at both regimes: the ACK for a full-MSS
    in-order segment delivered to a large application buffer (in-range
    accounting, window = max(32768 − 0, 1024) = 32768), and the ACK of
    the 33rd truncated 1-byte-buffer receive (recv_buffer_used = 33759
    past recv_buffer_size = 32768, window = the wrapped
    max(32768 + 65536 − 33759, 1024) = 64545). -/
theorem recv_ack_window_formula_w :
    (∃ a, (sham_recv_step recvR0 (mssPacket 0) [] 0 2048).ack = some a ∧
      SHAM_MAX_DATA_SIZE ≤ a.header.window_size ∧
      ((sham_recv_core recvR0 (mssPacket 0) [] 0 2048).1.recv_buffer_used ≤
          (sham_recv_core recvR0 (mssPacket 0) [] 0 2048).1.recv_buffer_size →
        a.header.window_size =
          max ((sham_recv_core recvR0 (mssPacket 0) [] 0 2048).1.recv_buffer_size -
            (sham_recv_core recvR0 (mssPacket 0) [] 0 2048).1.recv_buffer_used)
            SHAM_MAX_DATA_SIZE) ∧
      ((sham_recv_core recvR0 (mssPacket 0) [] 0 2048).1.recv_buffer_size <
          (sham_recv_core recvR0 (mssPacket 0) [] 0 2048).1.recv_buffer_used →
        a.header.window_size =
          max ((sham_recv_core recvR0 (mssPacket 0) [] 0 2048).1.recv_buffer_size + M16 -
            (sham_recv_core recvR0 (mssPacket 0) [] 0 2048).1.recv_buffer_used)
            SHAM_MAX_DATA_SIZE)) ∧
    (∃ a, (sham_recv_step (c7trace 32) (mssPacket 32) [] 0 1).ack = some a ∧
      SHAM_MAX_DATA_SIZE ≤ a.header.window_size ∧
      ((sham_recv_core (c7trace 32) (mssPacket 32) [] 0 1).1.recv_buffer_used ≤
          (sham_recv_core (c7trace 32) (mssPacket 32) [] 0 1).1.recv_buffer_size →
        a.header.window_size =
          max ((sham_recv_core (c7trace 32) (mssPacket 32) [] 0 1).1.recv_buffer_size -
            (sham_recv_core (c7trace 32) (mssPacket 32) [] 0 1).1.recv_buffer_used)
            SHAM_MAX_DATA_SIZE) ∧
      ((sham_recv_core (c7trace 32) (mssPacket 32) [] 0 1).1.recv_buffer_size <
          (sham_recv_core (c7trace 32) (mssPacket 32) [] 0 1).1.recv_buffer_used →
        a.header.window_size =
          max ((sham_recv_core (c7trace 32) (mssPacket 32) [] 0 1).1.recv_buffer_size + M16 -
            (sham_recv_core (c7trace 32) (mssPacket 32) [] 0 1).1.recv_buffer_used)
            SHAM_MAX_DATA_SIZE)) :=
  ⟨recv_ack_window_formula recvR0 (mssPacket 0) [] 0 2048 (by decide)
      (by decide) (by decide),
   recv_ack_window_formula (c7trace 32) (mssPacket 32) [] 0 1 (by decide)
      (by decide) (by decide)⟩

/-! ## C3, C4, C5, C6, C8 counterexamples -/

set_option maxRecDepth 20000 in
/-- C3 counterexample: after the duplicated out-of-order segment at
    offset 1024 was buffered twice and the in-order segment at offset 0
    triggered delivery, slot 1 still holds a valid entry with seq_num =
    1024 while recv_seq = 2048: the claimed invariant `seq > recv_seq`
    for every valid ooo_buffer entry is false in this reachable state. -/
theorem ooo_invariant_fails_on_duplicate :
    (oooEntryAt c3run.1 1).valid = true ∧
    (oooEntryAt c3run.1 1).packet.header.seq_num = 1024 ∧
    c3run.1.recv_seq = 2048 ∧
    ¬ oooInv c3run.1 := by
  decide

set_option maxRecDepth 20000 in
/-- C4 counterexample: two segments (1024+1 bytes) are emitted through
    the flow-control gate, then a legitimate ACK (nothing newly
    acknowledged, advertised window shrunk to the MSS floor 1024) is
    processed in sham_send's drain poll: at that observation point 1025
    bytes are in flight against peer_window_size = 1024, refuting
    `in-flight ≤ peer_window_size at every observation point`. -/
theorem inflight_exceeds_peer_window_after_shrink :
    c4it2.2.2.isSome = true ∧
    bytesInFlight c4it2.1 = 1025 ∧
    bytesInFlight c4post = 1025 ∧
    c4post.peer_window_size = 1024 ∧
    ¬(bytesInFlight c4post ≤ c4post.peer_window_size) := by
  decide

/-- C5 counterexample: the close handshake's outgoing packets (the FIN,
    then the final ACK for the peer's FIN) carry the fixed default
    window 16384 because sham_close builds them with sham_create_packet,
    while the claimed formula gives max(32768 - 0, 1024) = 32768 for
    that state (whose recv_buffer_used is 0 throughout). -/
theorem close_ack_window_fixed_default :
    (c5run.map fun r => r.2.map fun p => (p.header.flags, p.header.window_size)) =
      some [(SHAM_FIN, SHAM_DEFAULT_ADVERTISED_WINDOW),
            (SHAM_ACK, SHAM_DEFAULT_ADVERTISED_WINDOW)] ∧
    (c5run.map fun r => r.1.recv_buffer_used) = some 0 ∧
    max (c5conn.recv_buffer_size - c5conn.recv_buffer_used) SHAM_MAX_DATA_SIZE
      = 32768 ∧
    (SHAM_DEFAULT_ADVERTISED_WINDOW : Nat) ≠ 32768 := by
  decide

set_option maxRecDepth 20000 in
/-- C6 counterexample: a 1037-byte datagram is not rejected: recvfrom is
    called with a 1036-byte buffer, so the datagram is truncated, decoded
    and accepted with a 1024-byte payload (which is also not
    `datagram_length - 12 = 1025`). -/
theorem oversize_datagram_truncated_accepted :
    c6dg.length = 1037 ∧
    (sham_recv_packet c6dg false).map (fun p => p.data_len) = some 1024 ∧
    ((1024 : Nat) ≠ c6dg.length - 12) := by
  decide

/-- C8 counterexample: processing a stale ACK (cumulative value 400 ≤
    last_byte_acked = 500) is not a no-op: it overwrites peer_window_size
    with the stale ACK's advertised window (16384 becomes 1024). -/
theorem stale_ack_overwrites_peer_window :
    c8ack.header.ack_num ≤ c8conn.last_byte_acked ∧
    sham_process_ack c8conn c8ack ≠ c8conn ∧
    (sham_process_ack c8conn c8ack).peer_window_size = 1024 ∧
    c8conn.peer_window_size = 16384 := by
  decide

/-! ## C6 amended — the size gate sham_recv_packet actually implements -/

/-- C6 amended: sham_recv_packet rejects every datagram shorter than 12
    bytes; a datagram of 12 or more bytes (not simulation-dropped) is
    always accepted, with payload length min(datagram_length, 1036) - 12
    (longer datagrams are truncated by the bounded receive rather than
    rejected), which never exceeds 1024. -/
theorem recv_packet_size_gate (dg : List Nat) (dr : Bool) :
    (dg.length < SHAM_HEADER_SIZE → sham_recv_packet dg dr = none) ∧
    (SHAM_HEADER_SIZE ≤ dg.length → dr = false →
      ∃ pk, sham_recv_packet dg dr = some pk ∧
        pk.data_len = min dg.length SHAM_MAX_PACKET_SIZE - SHAM_HEADER_SIZE ∧
        pk.data_len ≤ SHAM_MAX_DATA_SIZE) := by
  constructor
  · intro h
    have hlt : min dg.length SHAM_MAX_PACKET_SIZE < SHAM_HEADER_SIZE := by
      have := Nat.min_le_left dg.length SHAM_MAX_PACKET_SIZE
      omega
    unfold sham_recv_packet
    dsimp only
    rw [if_pos hlt]
  · intro h hdr
    subst hdr
    have hge : ¬ min dg.length SHAM_MAX_PACKET_SIZE < SHAM_HEADER_SIZE := by
      have h2 : (SHAM_HEADER_SIZE : Nat) ≤ SHAM_MAX_PACKET_SIZE := by decide
      omega
    unfold sham_recv_packet
    dsimp only
    rw [if_neg hge, if_neg (by simp)]
    refine ⟨_, rfl, rfl, ?_⟩
    show min dg.length SHAM_MAX_PACKET_SIZE - SHAM_HEADER_SIZE ≤
      SHAM_MAX_DATA_SIZE
    have h3 : (SHAM_MAX_PACKET_SIZE : Nat) = 1036 := by decide
    have h4 : (SHAM_HEADER_SIZE : Nat) = 12 := by decide
    have h5 : (SHAM_MAX_DATA_SIZE : Nat) = 1024 := by decide
    omega

/-- C6 amended, witness: a 5-byte datagram is rejected; a 100-byte
    datagram is accepted with an 88-byte payload. -/
theorem recv_packet_size_gate_w :
    sham_recv_packet (List.replicate 5 0) true = none ∧
    (∃ pk, sham_recv_packet (List.replicate 100 3) false = some pk ∧
      pk.data_len =
        min (List.replicate 100 (3 : Nat)).length SHAM_MAX_PACKET_SIZE -
          SHAM_HEADER_SIZE ∧
      pk.data_len ≤ SHAM_MAX_DATA_SIZE) :=
  ⟨(recv_packet_size_gate (List.replicate 5 0) true).1 (by decide),
   (recv_packet_size_gate (List.replicate 100 3) false).2 (by decide) rfl⟩

/-- C7 amended, witness at a concrete connection and count. -/
theorem update_recv_buffer_charge_discharge_w :
    (sham_update_recv_buffer (c7trace 1) (7 : Int)).recv_buffer_used =
      ((c7trace 1).recv_buffer_used + 7) % M16 ∧
    (sham_update_recv_buffer (c7trace 1) (-(7 : Int))).recv_buffer_used =
      (if 7 ≤ (c7trace 1).recv_buffer_used then
        (c7trace 1).recv_buffer_used - 7 else 0) ∧
    (sham_update_recv_buffer (c7trace 1) (-(7 : Int))).recv_buffer_used ≤
      (c7trace 1).recv_buffer_used :=
  update_recv_buffer_charge_discharge (c7trace 1) 7 (by decide)

end Sham
